import Mathlib

/-!
Verification of the ai.tools news-aggregation service.

The development shallowly embeds the TypeScript sources: pure helpers become
Lean functions; DOM access (cheerio), the platform URL constructor, the JS
Date parser, SHA-256 hashing, the HTTP stack, the LLM and the Telegram channel
are external collaborators and are modelled as explicit inputs (records of
extracted fields, oracles passed as arguments).  Machine behaviour that the
claims depend on (JS string truthiness, first-match loops, upsert-ignore
persistence) is embedded faithfully from the source files.
-/

namespace AiTools

/-! ## JS string helpers -/

/-- Embeds the JS idiom a || b on strings: the empty string is falsy. -/
def jsOrS (a b : String) : String := if a = "" then b else a

/-- Embeds reading an attribute that may be undefined, with || "" applied:
undefined becomes the empty string. -/
def optS (o : Option String) : String :=
  match o with
  | none => ""
  | some s => s

/-- Embeds JS truthiness of a string | null value: null and "" are falsy. -/
def jsTruthyS (o : Option String) : Bool :=
  match o with
  | none => false
  | some s => s ≠ ""

/-- Character-list version of a startsWith test. -/
def listStartsWith : List Char → List Char → Bool
  | [], _ => true
  | _ :: _, [] => false
  | p :: ps, c :: cs => p = c && listStartsWith ps cs

/-- Character-list substring search: does the text contain the pattern? -/
def listHasSub (pat : List Char) : List Char → Bool
  | [] => pat.isEmpty
  | c :: cs => listStartsWith pat (c :: cs) || listHasSub pat cs

/-- Embeds JS String.prototype.includes(pat). -/
def strContains (s pat : String) : Bool := listHasSub pat.data s.data

/-- Embeds JS String.prototype.startsWith(pat). -/
def strStartsWith (s pat : String) : Bool := listStartsWith pat.data s.data

/-- Embeds JS String.prototype.endsWith(pat). -/
def strEndsWith (s pat : String) : Bool :=
  listStartsWith pat.data.reverse s.data.reverse

/-- ASCII lower-casing of one character, used to model the i (ignore-case)
flag of the regular expressions in the sources, whose patterns are ASCII. -/
def asciiLower (c : Char) : Char :=
  if 'A' ≤ c ∧ c ≤ 'Z' then Char.ofNat (c.toNat + 32) else c

/-- ASCII lower-casing of a string. -/
def lowerS (s : String) : String := ⟨s.data.map asciiLower⟩

/-- Whitespace class used by the embedding of the JS regex \s (ASCII part). -/
def isWsChar (c : Char) : Bool :=
  c = ' ' || c = '\t' || c = '\n' || c = '\r' || c = '\x0b' || c = '\x0c'

/-- Embeds text.replace(/\s+/g, " "): collapses every whitespace run to one
space.  The flag records whether the previous character was whitespace. -/
def collapseWsGo : Bool → List Char → List Char
  | _, [] => []
  | prevWs, c :: cs =>
    if isWsChar c then
      if prevWs then collapseWsGo true cs else ' ' :: collapseWsGo true cs
    else c :: collapseWsGo false cs

/-- Embeds JS String.prototype.trim on a character list. -/
def trimWs (cs : List Char) : List Char :=
  ((cs.dropWhile isWsChar).reverse.dropWhile isWsChar).reverse

/-- Embeds cleanText from src/src/services/parsers/utils.ts: collapse
whitespace runs to single spaces (the second replace of newline runs is a
no-op after the first) and trim. -/
def cleanText (s : String) : String := ⟨trimWs (collapseWsGo false s.data)⟩

/-- Largest index i with i ≤ upTo and cs[i] = ' ', JS-style -1 when none:
embeds cleaned.lastIndexOf(" ", maxLength). -/
def lastSpaceLE (cs : List Char) (upTo : Nat) : Int :=
  let idxs := (List.range cs.length).filter
    (fun i => decide (i ≤ upTo) && decide (cs.getD i 'x' = ' '))
  match idxs.getLast? with
  | some i => (i : Int)
  | none => -1

/-- Embeds createSnippet from src/src/services/parsers/utils.ts (maxLength is
200 at every call site; passed explicitly here). -/
def createSnippet (maxLength : Nat) (content : String) : String :=
  let cleaned := cleanText content
  if cleaned.length ≤ maxLength then cleaned
  else
    let lastSpace := lastSpaceLE cleaned.data maxLength
    let cutPoint := if lastSpace > 0 then lastSpace.toNat else maxLength
    ⟨cleaned.data.take cutPoint⟩ ++ "..."

/-- Embeds isAfterDate from src/src/services/parsers/utils.ts.  Dates are
modelled as epoch integers; a missing date is included by design. -/
def isAfterDate (date : Option Int) (since : Int) : Bool :=
  match date with
  | none => true
  | some d => decide (since ≤ d)

/-- Lexicographic comparison of character lists, used to model SQL / ISO-8601
string comparison of timestamp columns. -/
def strListLe : List Char → List Char → Bool
  | [], _ => true
  | _ :: _, [] => false
  | a :: as, b :: bs => if a = b then strListLe as bs else decide (a < b)

/-- String comparison for ISO-8601 timestamps (lexicographic order on the
character sequence coincides with chronological order for this format). -/
def strLe (a b : String) : Bool := strListLe a.data b.data

/-! ## URL model

The WHATWG URL constructor used by normalizeUrl is a platform builtin, so it
is modelled here: absolute http(s)-style URLs (scheme://host/path?query) and
root-relative references resolved against an absolute base.  Other inputs
fail to parse, which models the constructor throwing. -/

/-- A parsed URL: scheme, host, path and the query as key-value pairs. -/
structure UrlRec where
  scheme : String
  host : String
  path : String
  query : List (String × String)
deriving DecidableEq, Repr

/-- Splits a character list at the first occurrence of the separator. -/
def splitOnceCh (sep : List Char) : List Char → Option (List Char × List Char)
  | [] => none
  | c :: cs =>
    if listStartsWith sep (c :: cs) then some ([], (c :: cs).drop sep.length)
    else
      match splitOnceCh sep cs with
      | some (pre, post) => some (c :: pre, post)
      | none => none

/-- Splits a string at the first occurrence of the separator. -/
def splitOnceS (s sep : String) : Option (String × String) :=
  match splitOnceCh sep.data s.data with
  | some (pre, post) => some (⟨pre⟩, ⟨post⟩)
  | none => none

/-- Parses one query component, k=v or a bare key. -/
def parseQueryPair (s : String) : String × String :=
  match splitOnceS s "=" with
  | some (k, v) => (k, v)
  | none => (s, "")

/-- Splits a character list on every occurrence of the separator. -/
def splitAllCh (sep : Char) : List Char → List (List Char)
  | [] => [[]]
  | c :: cs =>
    if c = sep then [] :: splitAllCh sep cs
    else
      match splitAllCh sep cs with
      | [] => [[c]]
      | g :: gs => (c :: g) :: gs

/-- Parses a raw query string into key-value pairs. -/
def parseQuery (s : String) : List (String × String) :=
  if s = "" then []
  else (splitAllCh '&' s.data).map (fun g => parseQueryPair ⟨g⟩)

/-- Parses an absolute scheme://host/path?query URL; none models the URL
constructor throwing. -/
def parseAbsUrl (s : String) : Option UrlRec :=
  match splitOnceS s "://" with
  | none => none
  | some (scheme, rest) =>
    if scheme = "" then none
    else
      match splitOnceS rest "/" with
      | some (host, after) =>
        if host = "" then none
        else
          match splitOnceS (String.mk ('/' :: after.data)) "?" with
          | some (path, queryStr) => some ⟨scheme, host, path, parseQuery queryStr⟩
          | none => some ⟨scheme, host, String.mk ('/' :: after.data), []⟩
      | none => if rest = "" then none else some ⟨scheme, rest, "/", []⟩

/-- Models new URL(url, base): an absolute url parses on its own; a
root-relative url takes scheme and host from an absolute base; anything else
fails (the constructor throws). -/
def urlResolve (url base : String) : Option UrlRec :=
  match parseAbsUrl url with
  | some u => some u
  | none =>
    if strStartsWith url "/" then
      match parseAbsUrl base with
      | some b =>
        match splitOnceS url "?" with
        | some (path, queryStr) => some ⟨b.scheme, b.host, path, parseQuery queryStr⟩
        | none => some ⟨b.scheme, b.host, url, []⟩
      | none => none
    else none

/-- Joins query pairs back into a query string. -/
def joinQuery (q : List (String × String)) : String :=
  String.intercalate "&" (q.map (fun kv => kv.1 ++ "=" ++ kv.2))

/-- Serializes a parsed URL, modelling URL.prototype.toString. -/
def urlToString (u : UrlRec) : String :=
  u.scheme ++ "://" ++ u.host ++ u.path ++
    (if u.query.isEmpty then "" else "?" ++ joinQuery u.query)

/-- Tracking query parameters removed by normalizeUrl, from
src/src/services/parsers/utils.ts. -/
def trackingParams : List String :=
  ["utm_source", "utm_medium", "utm_campaign", "utm_content", "utm_term",
   "ref", "source"]

/-- Embeds normalizeUrl from src/src/services/parsers/utils.ts: resolve the
url against the base, delete each tracking parameter, serialize; if URL
construction fails, return the input unchanged. -/
def normalizeUrl (url baseUrl : String) : String :=
  match urlResolve url baseUrl with
  | none => url
  | some absoluteUrl =>
    urlToString (trackingParams.foldl
      (fun acc p => { acc with query := acc.query.filter (fun kv => kv.1 ≠ p) }) absoluteUrl)

/-! ## Extraction result items -/

/-- Embeds ParsedNewsItem from src/src/db (title, url, optional publish date
as an epoch integer, raw content, snippet). -/
structure ParsedNewsItem where
  title : String
  url : String
  publishedAt : Option Int
  rawContent : String
  snippet : String
deriving DecidableEq, Repr

/-! ## Parser dispatch (src/src/services/parsers/index.ts)

Each parser is identified by a tag; its name and its canParse predicate are
embedded from the sources.  canParse is a pure function of the url string in
every parser, so the dispatcher is a pure function. -/

/-- One tag per parser class registered in getAllParsers. -/
inductive ParserKind where
  | openai | anthropic | googleBlog | microsoftBlog | huggingFace | cursor
  | replit | elevenLabs | n8n | suno | runway | perplexity | xai | deepl
  | rss | htmlBlog
deriving DecidableEq, Repr

/-- Embeds the name field of each parser class. -/
def parserName : ParserKind → String
  | .openai => "OpenAI News Parser"
  | .anthropic => "Anthropic News Parser"
  | .googleBlog => "Google Blog Parser"
  | .microsoftBlog => "Microsoft Blog Parser"
  | .huggingFace => "Hugging Face Blog Parser"
  | .cursor => "Cursor Blog Parser"
  | .replit => "Replit Blog Parser"
  | .elevenLabs => "ElevenLabs Blog Parser"
  | .n8n => "n8n Blog Parser"
  | .suno => "Suno Blog Parser"
  | .runway => "Runway Blog Parser"
  | .perplexity => "Perplexity Hub Parser"
  | .xai => "X.AI News Parser"
  | .deepl => "DeepL Blog Parser"
  | .rss => "RSS/Atom Parser"
  | .htmlBlog => "HTML Blog Parser"

/-- Embeds RssParser.canParse: the seven case-insensitive feed URL patterns
(suffix patterns anchored with dollar, substring patterns unanchored). -/
def rssCanParse (url : String) : Bool :=
  let l := lowerS url
  strEndsWith l "/feed" || strEndsWith l "/feed/" ||
  strEndsWith l "/rss" || strEndsWith l "/rss/" ||
  strEndsWith l ".rss" || strEndsWith l ".xml" ||
  strEndsWith l "/atom" || strEndsWith l "/atom/" ||
  strContains l "feed.xml" || strContains l "rss.xml"

/-- Embeds the canParse method of every parser class (url.includes tests for
the custom parsers, the regex patterns for RSS, constantly true for the HTML
fallback). -/
def canParse : ParserKind → String → Bool
  | .openai, url => strContains url "openai.com/news" || strContains url "openai.com/blog"
  | .anthropic, url => strContains url "anthropic.com/news"
  | .googleBlog, url => strContains url "blog.google" || strContains url "googleblog.com"
  | .microsoftBlog, url => strContains url "microsoft.com" && strContains url "blog"
  | .huggingFace, url => strContains url "huggingface.co/blog"
  | .cursor, url => strContains url "cursor.com/blog" || strContains url "cursor.sh/blog"
  | .replit, url => strContains url "blog.replit.com" || strContains url "replit.com/blog"
  | .elevenLabs, url => strContains url "elevenlabs.io/blog"
  | .n8n, url => strContains url "blog.n8n.io" || strContains url "n8n.io/blog"
  | .suno, url => strContains url "suno.com/blog"
  | .runway, url => strContains url "runwayml.com/news" || strContains url "runwayml.com/blog"
  | .perplexity, url => strContains url "perplexity.ai/hub" || strContains url "perplexity.ai/blog"
  | .xai, url => strContains url "x.ai/news" || strContains url "x.ai/blog"
  | .deepl, url => strContains url "deepl.com" && strContains url "blog"
  | .rss, url => rssCanParse url
  | .htmlBlog, _ => true

/-- Embeds getAllParsers: custom parsers first, then RSS, then the generic
HTML fallback, in source order. -/
def getAllParsers : List ParserKind :=
  [.openai, .anthropic, .googleBlog, .microsoftBlog, .huggingFace, .cursor,
   .replit, .elevenLabs, .n8n, .suno, .runway, .perplexity, .xai, .deepl,
   .rss, .htmlBlog]

/-- Embeds findParser: first loop over every parser whose name differs from
the HTML fallback testing canParse, then the RSS parser looked up by name,
then the HTML fallback looked up by name with a non-null assertion (none
models that assertion failing). -/
def findParser (url : String) : Option ParserKind :=
  let parsers := getAllParsers
  match parsers.find? (fun p => (parserName p != "HTML Blog Parser") && canParse p url) with
  | some parser => some parser
  | none =>
    match parsers.find? (fun p => parserName p == "RSS/Atom Parser") with
    | some rssP =>
      if canParse rssP url then some rssP
      else parsers.find? (fun p => parserName p == "HTML Blog Parser")
    | none => parsers.find? (fun p => parserName p == "HTML Blog Parser")

/-! ## Generic HTML fallback parser (htmlBlogParser.ts)

The DOM is external: a page is modelled as a function from a selector
template to the list of container elements it matches, and each container is
abstracted to the fields parseArticle reads from it.  The JS Date parser
behind parseDate is likewise passed in as a function. -/

/-- Embeds the ArticleSelector record of htmlBlogParser.ts. -/
structure ArticleSelector where
  container : String
  title : String
  link : String
  date : String
  content : String
deriving DecidableEq, Repr

/-- Embeds getArticleSelectors: the five selector templates in source order. -/
def getArticleSelectors : List ArticleSelector :=
  [⟨"article", "h1, h2, h3, .title, .post-title", "a",
    "time, .date, .published, .post-date, [datetime]",
    "p, .excerpt, .summary, .description"⟩,
   ⟨".post, .blog-post, .entry", "h1, h2, h3, .title, .post-title", "a",
    "time, .date, .published", "p, .excerpt, .summary"⟩,
   ⟨".card, .news-item, .item", "h2, h3, h4, .title", "a",
    "time, .date, span", "p, .description"⟩,
   ⟨"li.post, ul.posts > li, .post-list > li", "a, h2, h3", "a",
    "time, .date, span", "p, .excerpt"⟩,
   ⟨".grid-item, .col, [class*='col-']", "h2, h3, h4, .title a", "a",
    "time, .date", "p"⟩]

/-- A container element abstracted to the DOM reads of parseArticle: the text
of the first title match, whether that element is an anchor and its href, the
href of the first link match, the href of the closest enclosing anchor, the
datetime / data-date attributes and text of the first date match, and the
text of the first content match.  Option models an absent match or
attribute. -/
structure DomArticle where
  titleText : String
  titleIsAnchor : Bool
  titleHref : Option String
  linkHref : Option (Option String)
  closestAnchorHref : Option (Option String)
  dateDatetimeAttr : Option String
  dateDataAttr : Option String
  dateText : Option String
  contentText : Option String
deriving DecidableEq, Repr

/-- Embeds the regex matching /page/ followed by a digit anywhere in the
url, for isSkipLink. -/
def hasPageDigit : List Char → Bool
  | [] => false
  | c :: cs =>
    (listStartsWith "/page/".data (c :: cs) &&
      (match (c :: cs).drop 6 with
       | d :: _ => d.isDigit
       | [] => false)) || hasPageDigit cs

/-- Embeds HtmlBlogParser.isSkipLink: the eight case-insensitive skip
patterns (the page pattern needs a digit after /page/). -/
def isSkipLink (url : String) : Bool :=
  let l := lowerS url
  strContains l "/tag/" || strContains l "/category/" || strContains l "/author/" ||
  hasPageDigit l.data || strEndsWith l "#comment" || strEndsWith l "#comments" ||
  strContains l "/search?" || strContains l "javascript:" || strContains l "mailto:"

/-- Embeds HtmlBlogParser.parseArticle on one abstracted container: title
extraction and minimum length 5, the three-step link extraction, URL
normalization, skip-link filter, date extraction and the inclusive since
filter, and content extraction. -/
def parseArticle (parseDateFn : String → Option Int) (baseUrl : String)
    (since : Int) (article : DomArticle) : Option ParsedNewsItem :=
  let title := cleanText article.titleText
  if title = "" || title.length < 5 then none
  else
    let link0 : String :=
      match article.linkHref with
      | some h => optS h
      | none => ""
    let link1 : String :=
      if link0 = "" && article.titleIsAnchor then optS article.titleHref else link0
    let link2 : String :=
      if link1 = "" then
        match article.closestAnchorHref with
        | some h => optS h
        | none => ""
      else link1
    if link2 = "" then none
    else
      let link := normalizeUrl link2 baseUrl
      if isSkipLink link then none
      else
        let publishedAt :=
          match article.dateText with
          | none => none
          | some txt =>
            parseDateFn (jsOrS (optS article.dateDatetimeAttr)
              (jsOrS (optS article.dateDataAttr) txt))
        if !isAfterDate publishedAt since then none
        else
          let rawContent := cleanText (optS article.contentText)
          some ⟨title, link, publishedAt, rawContent, createSnippet 200 rawContent⟩

/-- Embeds the selector loop of HtmlBlogParser.parse: skip a template with no
container matches, parse every container of the template, and stop at the
first template whose parses produced at least one item. -/
def selectLoop (f : DomArticle → Option ParsedNewsItem)
    (page : ArticleSelector → List DomArticle) :
    List ArticleSelector → List ParsedNewsItem
  | [] => []
  | sel :: rest =>
    let articles := page sel
    if articles.length = 0 then selectLoop f page rest
    else
      let news := articles.filterMap f
      if news.length > 0 then news else selectLoop f page rest

/-- Embeds the extraction phase of HtmlBlogParser.parse after a successful
non-XML fetch: run the selector loop and cap the result at 20 items. -/
def htmlBlogParse (parseDateFn : String → Option Int)
    (page : ArticleSelector → List DomArticle) (baseUrl : String)
    (since : Int) : List ParsedNewsItem :=
  (selectLoop (parseArticle parseDateFn baseUrl since) page getArticleSelectors).take 20

/-! ## Custom parsers (customParsers.ts): OpenAI and Anthropic -/

/-- An anchor matched by the OpenAI parser query, abstracted to the DOM reads
of its loop body: the href attribute, the text of the first h3/h2/span
descendant, the anchor text, the datetime attribute of the first time or
[datetime] descendant, and the text of a time element in the parent. -/
structure OAnchor where
  href : Option String
  findTitleText : String
  text : String
  datetimeAttr : Option String
  parentTimeText : String
deriving DecidableEq, Repr

/-- Embeds OpenAIParser.parse after a successful fetch: for each matched
anchor, extract the title (noise filter at length 10), normalize the href,
read the date, apply the inclusive since filter and collect; cap at 20.
There is no within-pass deduplication in this parser. -/
def openaiParse (parseDateFn : String → Option Int) (url : String)
    (since : Int) (anchors : List OAnchor) : List ParsedNewsItem :=
  (anchors.filterMap (fun a =>
    let href := optS a.href
    let title := cleanText (jsOrS a.findTitleText a.text)
    if title = "" || title.length < 10 then none
    else
      let link := normalizeUrl href url
      let dateText := jsOrS (optS a.datetimeAttr) (jsOrS a.parentTimeText "")
      let publishedAt := parseDateFn dateText
      if isAfterDate publishedAt since then
        some ⟨title, link, publishedAt, "", ""⟩
      else none)).take 20

/-- An element matched by the Anthropic parser query, abstracted to the DOM
reads of its loop body.  chosenHref is the href of the element itself when it
is an anchor, otherwise of its first anchor descendant; chosenLinkText is the
text of that chosen link element. -/
structure AElem where
  chosenHref : Option String
  chosenLinkText : String
  findTitleText : String
  dateElText : String
  datetimeAttr : Option String
  excerptText : String
deriving DecidableEq, Repr

/-- Embeds the loop body of AnthropicParser.parse for one element against the
running seen-URL set: none when the element is skipped, otherwise the updated
seen set and the item when the date filter admits it.  The seen set is
extended before the date filter runs, exactly as in the source. -/
def anthropicStep (parseDateFn : String → Option Int) (url : String)
    (since : Int) (seen : List String) (e : AElem) :
    Option (List String × Option ParsedNewsItem) :=
  let href := optS e.chosenHref
  if href = "" || href = "#" || strStartsWith href "mailto:" || strStartsWith href "tel:" then none
  else if !strContains href "/news/" then none
  else
    let title := cleanText (jsOrS e.findTitleText e.chosenLinkText)
    if title = "" || title.length < 10 then none
    else
      let link := normalizeUrl href url
      if seen.contains link then none
      else
        let seen2 := link :: seen
        let dateText := jsOrS e.dateElText (jsOrS (optS e.datetimeAttr) "")
        let publishedAt := parseDateFn dateText
        let excerpt := cleanText e.excerptText
        if isAfterDate publishedAt since then
          some (seen2, some ⟨title, link, publishedAt, excerpt, createSnippet 200 excerpt⟩)
        else
          some (seen2, none)

/-- Embeds the element loop of AnthropicParser.parse, threading the seen-URL
set through the elements. -/
def anthropicLoop (parseDateFn : String → Option Int) (url : String)
    (since : Int) : List AElem → List String → List ParsedNewsItem
  | [], _ => []
  | e :: rest, seen =>
    match anthropicStep parseDateFn url since seen e with
    | none => anthropicLoop parseDateFn url since rest seen
    | some (seen2, none) => anthropicLoop parseDateFn url since rest seen2
    | some (seen2, some item) => item :: anthropicLoop parseDateFn url since rest seen2

/-- Embeds AnthropicParser.parse after a successful fetch: run the element
loop with an empty seen set and cap at 20. -/
def anthropicParse (parseDateFn : String → Option Int) (url : String)
    (since : Int) (elems : List AElem) : List ParsedNewsItem :=
  (anthropicLoop parseDateFn url since elems []).take 20

/-! ## Resilient fetch layer (src/src/services/parsers/utils.ts, fetchUrl)

The network is external: each attempt index is mapped by an oracle to what
that attempt would observe — a 2xx response, a non-2xx status, or a thrown
exception (a request cancelled by the per-attempt timeout surfaces as an
exception whose message contains "abort"). -/

/-- What one fetch attempt observes. -/
inductive AttemptOutcome where
  | success (contentType text : String)
  | httpError (status : Nat) (statusText : String)
  | thrown (msg : String)
deriving DecidableEq, Repr

/-- Embeds the FetchResult record of parsers/types.ts. -/
structure FetchResult where
  ok : Bool
  contentType : String
  text : String
  error : Option String
deriving DecidableEq, Repr

/-- Embeds the attempt loop of fetchUrl from the given attempt index on:
2xx returns the payload; a 4xx other than 429 is terminal; 5xx and 429 retry
after recording the status line; a thrown error whose message contains
"abort" (the cancellation signal) returns the timeout failure immediately;
any other thrown error is recorded and retried.  When the attempt index
passes retryCount the last recorded error is returned. -/
def fetchUrlFrom (timeoutMs retryCount : Nat) (attempts : Nat → AttemptOutcome)
    (attempt : Nat) (lastError : String) : FetchResult :=
  if attempt > retryCount then ⟨false, "", "", some lastError⟩
  else
    match attempts attempt with
    | .success contentType text => ⟨true, contentType, text, none⟩
    | .httpError status statusText =>
      let lastError := "HTTP " ++ toString status ++ ": " ++ statusText
      if 400 ≤ status ∧ status < 500 ∧ status ≠ 429 then
        ⟨false, "", "", some lastError⟩
      else fetchUrlFrom timeoutMs retryCount attempts (attempt + 1) lastError
    | .thrown msg =>
      if strContains msg "abort" then
        ⟨false, "", "", some ("Timeout after " ++ toString timeoutMs ++ "ms")⟩
      else fetchUrlFrom timeoutMs retryCount attempts (attempt + 1) msg
termination_by retryCount + 1 - attempt

/-- Embeds fetchUrl: the attempt loop started at attempt 0 with an empty
last error. -/
def fetchUrl (timeoutMs retryCount : Nat) (attempts : Nat → AttemptOutcome) :
    FetchResult :=
  fetchUrlFrom timeoutMs retryCount attempts 0 ""

/-- An attempt outcome on which the loop of fetchUrl continues to the next
attempt: a retryable status (5xx or 429) or a thrown error that is not the
cancellation signal. -/
def retriableOutcome : AttemptOutcome → Prop
  | .success _ _ => False
  | .httpError status _ => ¬(400 ≤ status ∧ status < 500 ∧ status ≠ 429)
  | .thrown msg => strContains msg "abort" = false

instance : DecidablePred retriableOutcome := fun o => by
  unfold retriableOutcome
  cases o <;> infer_instance

/-! ## Change detector (newContentChecker.ts) -/

/-- Embeds the Tool row: identifier, name, optional news URL, watermark
(last parsed URL), language and active flag. -/
structure Tool where
  id : String
  name : String
  news_url : Option String
  last_parsed_url : Option String
  lang : String
  is_active : Bool
deriving DecidableEq, Repr

/-- Embeds NewContentCheckResult. -/
structure NewContentCheckResult where
  hasNewContent : Bool
  newItems : List ParsedNewsItem
  latestUrl : Option String
  previousUrl : Option String
deriving DecidableEq, Repr

/-- Outcome of the dispatched parser.parse call inside checkForNewContent:
the extracted newest-first item list, or a thrown error. -/
inductive ExtractOutcome where
  | ok (items : List ParsedNewsItem)
  | err (msg : String)
deriving DecidableEq, Repr

/-- Embeds checkForNewContent: no configured news URL (null or empty, JS
truthiness) reports no new content; a thrown fetch/parse error is caught and
reports no new content; an empty extraction reports no new content; a falsy
watermark — null or the empty string, the JS truthiness of
`if (!tool.last_parsed_url)` — takes the first-time branch and reports only
the newest item (with a hard-coded null previous locator, as in the source);
an unchanged newest locator reports no new content; otherwise the
newest-first list is walked collecting items until (exclusive) the stored
watermark locator, the for-break walk being takeWhile.  The strict JS
equality of a string against the nullable field is modelled by comparing
under some. -/
def checkForNewContent (tool : Tool) (outcome : ExtractOutcome) :
    NewContentCheckResult :=
  if !jsTruthyS tool.news_url then
    ⟨false, [], none, tool.last_parsed_url⟩
  else
    match outcome with
    | .err _ => ⟨false, [], none, tool.last_parsed_url⟩
    | .ok allNews =>
      match allNews with
      | [] => ⟨false, [], none, tool.last_parsed_url⟩
      | latestItem :: rest =>
        let latestUrl := latestItem.url
        if !jsTruthyS tool.last_parsed_url then
          ⟨true, [latestItem], some latestUrl, none⟩
        else if some latestUrl = tool.last_parsed_url then
          ⟨false, [], some latestUrl, tool.last_parsed_url⟩
        else
          let newItems := (latestItem :: rest).takeWhile
            (fun item => some item.url ≠ tool.last_parsed_url)
          ⟨decide (newItems.length > 0), newItems, some latestUrl, tool.last_parsed_url⟩

/-- Modelled from the spec: updateToolLastParsedUrl is declared in the
storage layer (its body is not among the sources; only its import and call
site are) and, per the external-interfaces section, performs a single-field
update of the Source watermark by identifier — here, setting
last_parsed_url of the given tool. -/
def updateToolLastParsedUrl (tool : Tool) (url : String) : Tool :=
  { tool with last_parsed_url := some url }

/-- Embeds checkAndUpdateLastParsed: run the check and, when updateDb is set,
new content was found and the latest URL is truthy (non-null and non-empty),
commit the watermark; returns the check result and the resulting tool row. -/
def checkAndUpdateLastParsed (tool : Tool) (outcome : ExtractOutcome)
    (updateDb : Bool) : NewContentCheckResult × Tool :=
  let result := checkForNewContent tool outcome
  if updateDb && result.hasNewContent && jsTruthyS result.latestUrl then
    (result, updateToolLastParsedUrl tool (optS result.latestUrl))
  else
    (result, tool)

/-! ## Storage model (src/src/db/queries)

The relational store is modelled as in-memory lists.  Row order stands in
for the unspecified physical order; the order-by clauses of the queries are
not modelled (no claim depends on result ordering).  SHA-256 hashing and
Date.toISOString are platform facilities passed in through the environment
record. -/

/-- Embeds the news_items row (per migrations 0001 and 0003: digest_date
defaults to null). -/
structure StoredItem where
  id : Nat
  tool_id : String
  title : String
  url : String
  published_at : Option String
  raw_content : String
  snippet : String
  importance : Option String
  tags : List String
  lang : String
  hash : String
  digest_date : Option String
deriving DecidableEq, Repr

/-- Embeds NewsItemInput (a news_items row before the store assigns an id). -/
structure NewsItemInput where
  tool_id : String
  title : String
  url : String
  published_at : Option String
  raw_content : String
  snippet : String
  importance : Option String
  tags : List String
  lang : String
  hash : String
deriving DecidableEq, Repr

/-- Embeds the daily_digest row. -/
structure DigestRow where
  date : String
  summary_md : String
  summary_md_ru : Option String
  summary_short : String
  tools_list : List String
deriving DecidableEq, Repr

/-- Output of the digest generator (digestGenerator.ts DigestResult). -/
structure DigestContent where
  summaryMd : String
  summaryMdRu : String
  summaryShort : String
  toolsList : List String
deriving DecidableEq, Repr

/-- Result of a publishToTelegram call. -/
structure TgResult where
  success : Bool
  error : String
deriving DecidableEq, Repr

/-- The database state: tools, stored items, digests, and the next id the
store will assign. -/
structure DB where
  tools : List Tool
  items : List StoredItem
  digests : List DigestRow
  nextId : Nat
deriving DecidableEq, Repr

/-- Embeds getActiveTools: the active tools (result ordering by name is not
modelled). -/
def getActiveTools (db : DB) : List Tool := db.tools.filter (fun t => t.is_active)

/-- Embeds getDailyDigest: the digest row for the date, if any. -/
def getDailyDigest (db : DB) (date : String) : Option DigestRow :=
  db.digests.find? (fun d => d.date == date)

/-- Embeds saveDailyDigest: upsert keyed by date (overwrite on conflict);
summary_md_ru is stored only when truthy, as in the source. -/
def saveDailyDigest (db : DB) (date summaryMd summaryMdRu summaryShort : String)
    (toolsList : List String) : DB :=
  let row : DigestRow :=
    ⟨date, summaryMd, if summaryMdRu ≠ "" then some summaryMdRu else none,
     summaryShort, toolsList⟩
  if (db.digests.find? (fun d => d.date == date)).isSome then
    { db with digests := db.digests.map (fun d => if d.date == date then row else d) }
  else
    { db with digests := db.digests ++ [row] }

/-- Embeds insertNewsItems: upsert with hash as the conflict key and
ignoreDuplicates, so an input whose hash is already present is dropped and a
fresh input is appended with the next id and a null digest marker. -/
def insertNewsItems (db : DB) : List NewsItemInput → DB
  | [] => db
  | inp :: rest =>
    if db.items.any (fun it => it.hash == inp.hash) then
      insertNewsItems db rest
    else
      insertNewsItems
        { db with
          items := db.items ++
            [⟨db.nextId, inp.tool_id, inp.title, inp.url, inp.published_at,
              inp.raw_content, inp.snippet, inp.importance, inp.tags, inp.lang,
              inp.hash, none⟩],
          nextId := db.nextId + 1 } rest

/-- Embeds getTodayNews: the items whose published_at lies in the UTC day of
the date (null publish dates are excluded by the SQL range comparison); the
tool-name join and the importance filter (unused by the pipeline) are not
modelled. -/
def getTodayNews (db : DB) (date : String) : List StoredItem :=
  let startOfDay := date ++ "T00:00:00.000Z"
  let endOfDay := date ++ "T23:59:59.999Z"
  db.items.filter (fun it =>
    match it.published_at with
    | some p => strLe startOfDay p && strLe p endOfDay
    | none => false)

/-- Strict ISO-timestamp comparison derived from the total order strLe. -/
def strLt (a b : String) : Bool := !strLe b a

/-- Embeds getNewsForDigest: recent undigested items within the recent
cutoff, plus undigested undated items capped at 20 when enabled, and missed
undigested items between the cutoffs whose importance is in the given list. -/
def getNewsForDigest (db : DB) (recentCutoff missedCutoff : String)
    (includeUndated : Bool) (missedImportance : List String) :
    List StoredItem × List StoredItem :=
  let recent := db.items.filter (fun it =>
    it.digest_date = none &&
    (match it.published_at with
     | some p => strLe recentCutoff p
     | none => false))
  let undated :=
    if includeUndated then
      (db.items.filter (fun it =>
        it.digest_date = none && it.published_at = none)).take 20
    else []
  let missed := db.items.filter (fun it =>
    it.digest_date = none &&
    (match it.published_at with
     | some p => strLe missedCutoff p && strLt p recentCutoff
     | none => false) &&
    (match it.importance with
     | some imp => missedImportance.contains imp
     | none => false))
  (recent ++ undated, missed)

/-- Embeds markNewsAsDigested: set digest_date for every item whose id is in
the list. -/
def markNewsAsDigested (db : DB) (newsIds : List Nat) (digestDate : String) : DB :=
  { db with items := db.items.map (fun it =>
      if newsIds.contains it.id then { it with digest_date := some digestDate } else it) }

/-! ## Pipeline orchestrator (src/src/services/newsPipeline.ts) -/

/-- The pipeline's external collaborators: the per-tool extraction call
(fetchNewToolNews, whose thrown exceptions the loop catches), SHA-256
hashing, Date.toISOString, the LLM digest generator and the Telegram
publisher. -/
structure PipelineEnv where
  fetchOutcome : Tool → Except String (List ParsedNewsItem)
  hashFn : String → String
  isoOf : Int → String
  gen : List StoredItem → String → DigestContent
  publish : String → String → TgResult

/-- Embeds transformNewsItems: database form with the dedup hash computed
from url and title. -/
def transformNewsItems (env : PipelineEnv) (parsedNews : List ParsedNewsItem)
    (tool : Tool) : List NewsItemInput :=
  parsedNews.map (fun item =>
    ⟨tool.id, item.title, item.url, item.publishedAt.map env.isoOf,
     item.rawContent, item.snippet, none, [], tool.lang,
     env.hashFn (item.url ++ "|" ++ item.title)⟩)

/-- Accumulator of the per-tool loop in fetchAndInsertNews. -/
structure FetchAcc where
  allNewsItems : List NewsItemInput
  totalNews : Nat
  toolsProcessed : Nat
  errors : List String
deriving DecidableEq, Repr

/-- Embeds the per-tool loop of fetchAndInsertNews: a thrown error is caught
and recorded and the loop continues; an empty extraction is skipped;
otherwise the transformed items are accumulated. -/
def fetchLoop (env : PipelineEnv) : List Tool → FetchAcc → FetchAcc
  | [], acc => acc
  | tool :: rest, acc =>
    match env.fetchOutcome tool with
    | .error e =>
      fetchLoop env rest
        { acc with errors :=
            acc.errors ++ ["Error processing " ++ tool.name ++ ": " ++ e] }
    | .ok parsedNews =>
      if parsedNews.length = 0 then fetchLoop env rest acc
      else
        let newsItems := transformNewsItems env parsedNews tool
        fetchLoop env rest
          { allNewsItems := acc.allNewsItems ++ newsItems,
            totalNews := acc.totalNews + newsItems.length,
            toolsProcessed := acc.toolsProcessed + 1,
            errors := acc.errors }

/-- Embeds the FetchNewsResult record. -/
structure FetchNewsResult where
  totalNews : Nat
  toolsProcessed : Nat
  errors : List String
deriving DecidableEq, Repr

/-- Embeds fetchAndInsertNews: loop over the active tools, then bulk-insert
the accumulated items when there are any. -/
def fetchAndInsertNews (env : PipelineEnv) (db : DB) : FetchNewsResult × DB :=
  let tools := getActiveTools db
  if tools.length = 0 then (⟨0, 0, []⟩, db)
  else
    let acc := fetchLoop env tools ⟨[], 0, 0, []⟩
    let db2 := if acc.allNewsItems.length > 0 then insertNewsItems db acc.allNewsItems else db
    (⟨acc.totalNews, acc.toolsProcessed, acc.errors⟩, db2)

/-- Options of runDailyDigestPipeline relevant to the embedding; the target
date is pre-rendered to its ISO day string. -/
structure PipelineOptions where
  targetDateStr : String
  forceRegenerate : Bool
  skipNewsFetch : Bool
  shouldPublish : Bool
deriving DecidableEq, Repr

/-- Embeds PipelineResult. -/
structure PipelineResult where
  ok : Bool
  totalNews : Nat
  toolsProcessed : Nat
  digestGenerated : Bool
  digestFromCache : Bool
  telegramPublished : Bool
  errors : List String
deriving DecidableEq, Repr

/-- Embeds runDailyDigestPipeline: the cache branch when a digest exists and
regeneration is not forced (optionally still fetching, then optionally
publishing the cached digest), otherwise fetch, generate a digest from the
target day's items when there are any, save it, and optionally publish.  The
external collaborators are total in this model, so the fatal catch branch is
unreachable and both exits return ok. -/
def runDailyDigestPipeline (env : PipelineEnv) (opts : PipelineOptions)
    (db : DB) : PipelineResult × DB :=
  let dateStr := opts.targetDateStr
  let existingDigest := getDailyDigest db dateStr
  if existingDigest.isSome && !opts.forceRegenerate then
    let fetched :=
      if !opts.skipNewsFetch then fetchAndInsertNews env db else (⟨0, 0, []⟩, db)
    let fetchRes := fetched.1
    let db1 := fetched.2
    let digestToPublish := (existingDigest.map (fun d => d.summary_md)).getD ""
    let pub :=
      if opts.shouldPublish && digestToPublish ≠ "" then
        let tg := env.publish digestToPublish dateStr
        if tg.success then (true, fetchRes.errors)
        else (false, fetchRes.errors ++ ["Telegram publish error: " ++ tg.error])
      else (false, fetchRes.errors)
    (⟨true, fetchRes.totalNews, fetchRes.toolsProcessed, false, true, pub.1,
      pub.2⟩, db1)
  else
    let fetched :=
      if !opts.skipNewsFetch then fetchAndInsertNews env db else (⟨0, 0, []⟩, db)
    let fetchRes := fetched.1
    let db1 := fetched.2
    let newsForDigest := getTodayNews db1 dateStr
    let genStep :=
      if newsForDigest.length > 0 then
        let digest := env.gen newsForDigest dateStr
        (some digest.summaryMd, true,
         saveDailyDigest db1 dateStr digest.summaryMd digest.summaryMdRu
           digest.summaryShort digest.toolsList)
      else (none, false, db1)
    let generatedSummary := genStep.1
    let digestGenerated := genStep.2.1
    let db2 := genStep.2.2
    let pub :=
      if opts.shouldPublish && jsTruthyS generatedSummary then
        let tg := env.publish (optS generatedSummary) dateStr
        if tg.success then (true, fetchRes.errors)
        else (false, fetchRes.errors ++ ["Telegram publish error: " ++ tg.error])
      else (false, fetchRes.errors)
    (⟨true, fetchRes.totalNews, fetchRes.toolsProcessed, digestGenerated, false,
      pub.1, pub.2⟩, db2)

/-- Options of runRollingDigestPipeline; the two look-back cutoffs and the
current day are pre-rendered to ISO strings (they are computed from the
clock, an external facility). -/
structure RollingOptions where
  recentCutoff : String
  missedCutoff : String
  todayStr : String
  fetchNews : Bool
  shouldPublish : Bool
  dryRun : Bool
deriving DecidableEq, Repr

/-- Embeds RollingDigestResult. -/
structure RollingDigestResult where
  ok : Bool
  recentNewsCount : Nat
  missedNewsCount : Nat
  digestGenerated : Bool
  telegramPublished : Bool
  newsMarkedAsDigested : Nat
  errors : List String
deriving DecidableEq, Repr

/-- Embeds runRollingDigestPipeline: optional fetch, gather the rolling
windows, early exit when nothing is unprocessed, otherwise generate and save
the digest, mark every contributing item as digested unless dry-run, and
optionally publish. -/
def runRollingDigestPipeline (env : PipelineEnv) (opts : RollingOptions)
    (db : DB) : RollingDigestResult × DB :=
  let fetched :=
    if opts.fetchNews then
      ((fetchAndInsertNews env db).1.errors, (fetchAndInsertNews env db).2)
    else ([], db)
  let errors0 := fetched.1
  let db1 := fetched.2
  let windows := getNewsForDigest db1 opts.recentCutoff opts.missedCutoff true ["high"]
  let recentNews := windows.1
  let missedNews := windows.2
  let totalNews := recentNews.length + missedNews.length
  if totalNews = 0 then
    (⟨true, 0, 0, false, false, 0, errors0⟩, db1)
  else
    let allNewsForDigest := recentNews ++ missedNews
    let digest := env.gen allNewsForDigest opts.todayStr
    let db2 := saveDailyDigest db1 opts.todayStr digest.summaryMd
      digest.summaryMdRu digest.summaryShort digest.toolsList
    let markStep :=
      if !opts.dryRun then
        (allNewsForDigest.length,
         markNewsAsDigested db2 (allNewsForDigest.map (fun n => n.id)) opts.todayStr)
      else (0, db2)
    let pub :=
      if opts.shouldPublish && digest.summaryMd ≠ "" then
        let tg := env.publish digest.summaryMd opts.todayStr
        if tg.success then (true, errors0)
        else (false, errors0 ++ ["Telegram: " ++ tg.error])
      else (false, errors0)
    (⟨true, recentNews.length, missedNews.length, true, pub.1, markStep.1,
      pub.2⟩, markStep.2)

/-- The items the rolling pipeline hands to the digest generator (recent
window first, then missed window), as computed on the post-fetch store. -/
def rollingContributing (env : PipelineEnv) (opts : RollingOptions) (db : DB) :
    List StoredItem :=
  let db1 :=
    if opts.fetchNews then (fetchAndInsertNews env db).2 else db
  let windows := getNewsForDigest db1 opts.recentCutoff opts.missedCutoff true ["high"]
  windows.1 ++ windows.2

/-! ## Concrete sample data used by witnesses and counterexamples -/

/-- The custom parsers of getAllParsers followed by the RSS parser: every
parser the dispatch loop tests by name before the HTML fallback. -/
def frontParsers : List ParserKind :=
  [.openai, .anthropic, .googleBlog, .microsoftBlog, .huggingFace, .cursor,
   .replit, .elevenLabs, .n8n, .suno, .runway, .perplexity, .xai, .deepl,
   .rss]

/-- Sample tool with stored watermark B. -/
def dtool1 : Tool := ⟨"tool-1", "SiteOne", some "https://site.one/news", some "B", "en", true⟩

/-- Sample tool with no stored watermark. -/
def dtool2 : Tool := ⟨"tool-2", "SiteTwo", some "https://site.two/news", none, "en", true⟩

/-- Sample extraction items with single-letter locators. -/
def itX : ParsedNewsItem := ⟨"Item X", "X", none, "", ""⟩

def itA : ParsedNewsItem := ⟨"Item A", "A", none, "", ""⟩

def itB : ParsedNewsItem := ⟨"Item B", "B", none, "", ""⟩

def itC : ParsedNewsItem := ⟨"Item C", "C", none, "", ""⟩

/-- Sample stored item published on 2026-01-05 and not yet digested. -/
def cItem : StoredItem :=
  ⟨1, "t1", "Big Launch", "https://a.com/launch",
   some "2026-01-05T10:00:00.000Z", "", "", none, [], "en", "h1", none⟩

/-- Sample database holding only cItem. -/
def cDb : DB := ⟨[], [cItem], [], 2⟩

/-- Sample environment with no tools to fetch and a fixed generator. -/
def cEnv : PipelineEnv :=
  { fetchOutcome := fun _ => .ok [],
    hashFn := fun s => s,
    isoOf := fun _ => "",
    gen := fun _ _ => ⟨"digest text", "", "short", []⟩,
    publish := fun _ _ => ⟨true, ""⟩ }

/-- Sample single-date options for 2026-01-05, nothing forced. -/
def cOpts : PipelineOptions := ⟨"2026-01-05", false, false, false⟩

/-- Sample tools for the error-isolation scenario. -/
def wTool1 : Tool := ⟨"t1", "Alpha", some "https://a.com/news", none, "en", true⟩

def wTool2 : Tool := ⟨"t2", "Beta", some "https://b.com/news", none, "en", true⟩

/-- Sample database with the two tools and empty stores. -/
def wDb : DB := ⟨[wTool1, wTool2], [], [], 1⟩

/-- Sample item extracted from the second tool. -/
def wItem : ParsedNewsItem := ⟨"Beta Launch Post", "https://b.com/p1", none, "", ""⟩

/-- Sample environment where processing the first tool throws and the second
succeeds. -/
def wEnv : PipelineEnv :=
  { fetchOutcome := fun t => if t.id = "t1" then .error "fetch failed" else .ok [wItem],
    hashFn := fun s => s,
    isoOf := fun _ => "",
    gen := fun _ _ => ⟨"d", "", "s", []⟩,
    publish := fun _ _ => ⟨true, ""⟩ }

/-- Sample single-date options for the error-isolation scenario. -/
def wOpts : PipelineOptions := ⟨"2026-01-06", false, false, false⟩

/-- A container whose title is too short, so parseArticle rejects it. -/
def domE1 : DomArticle := ⟨"ab", false, none, none, none, none, none, none, none⟩

/-- A container that parses into an item. -/
def domE2 : DomArticle :=
  ⟨"Hello World Post", false, none, some (some "/post/hello"), none, none, none,
   none, none⟩

/-- A page where the first selector template matches one unparsable
container and the second template matches one parsable container. -/
def samplePage (sel : ArticleSelector) : List DomArticle :=
  if sel.container = "article" then [domE1]
  else if sel.container = ".post, .blog-post, .entry" then [domE2]
  else []

/-- The first selector template of getArticleSelectors. -/
def firstTemplate : ArticleSelector :=
  ⟨"article", "h1, h2, h3, .title, .post-title", "a",
   "time, .date, .published, .post-date, [datetime]",
   "p, .excerpt, .summary, .description"⟩

/-- An OpenAI anchor; the site rendering the same article in two containers
is modelled by repeating it in the query result. -/
def oaAnchor : OAnchor := ⟨some "/index/launch", "Hello World Launch", "", none, ""⟩

/-- Sample stored item inside the rolling recent window, not yet digested. -/
def rItem : StoredItem :=
  ⟨1, "t1", "Roll Item", "https://a.com/roll",
   some "2026-02-03T12:00:00.000Z", "", "", none, [], "en", "hr", none⟩

/-- Sample database for the rolling-window scenario. -/
def rDb : DB := ⟨[], [rItem], [], 2⟩

/-- Sample rolling options: recent cutoff 2026-02-01, missed cutoff
2026-01-28, run day 2026-02-04, no fetch, no publish, not a dry run. -/
def rOpts : RollingOptions :=
  ⟨"2026-02-01T00:00:00.000Z", "2026-01-28T00:00:00.000Z", "2026-02-04",
   false, false, false⟩

/-! # Theorems -/

/-! ## Generic list facts -/

/-- takeWhile keeps the whole list when the predicate holds everywhere. -/
theorem takeWhileAll {α : Type} (p : α → Bool) :
    ∀ l : List α, (∀ x ∈ l, p x = true) → l.takeWhile p = l := by
  intro l
  induction l with
  | nil => intro _; rfl
  | cons a l ih =>
    intro h
    have ha := h a (List.mem_cons_self a l)
    simp [List.takeWhile_cons, ha, ih (fun x hx => h x (List.mem_cons_of_mem a hx))]

/-- The first element surviving dropWhile falsifies the predicate. -/
theorem dropWhileHeadFalse {α : Type} (p : α → Bool) :
    ∀ (l : List α) (a : α) (as : List α), l.dropWhile p = a :: as → p a = false := by
  intro l
  induction l with
  | nil => intro a as h; simp [List.dropWhile] at h
  | cons c cs ih =>
    intro a as h
    rw [List.dropWhile_cons] at h
    by_cases hc : p c = true
    · exact ih a as (by simpa [hc] using h)
    · have hc' : p c = false := Bool.eq_false_iff.mpr hc
      simp [hc'] at h
      cases h with
      | intro h1 h2 => exact h1 ▸ hc'

/-! ## Claim C10: normalizeUrl is total and strips tracking parameters -/

/-- Folding the per-parameter deletes over the tracking list equals one
filter keeping the keys outside the list. -/
theorem foldlDeleteEqFilter :
    ∀ (ps : List String) (u : UrlRec),
      ps.foldl (fun acc p => { acc with query := acc.query.filter (fun kv => kv.1 ≠ p) }) u =
        { u with query := u.query.filter (fun kv => !(ps.contains kv.1)) } := by
  intro ps
  induction ps with
  | nil =>
    intro u
    simp [List.filter_true]
  | cons p ps ih =>
    intro u
    rw [List.foldl_cons, ih]
    have hq : (u.query.filter (fun kv => kv.1 ≠ p)).filter
        (fun kv => !(ps.contains kv.1)) =
        u.query.filter (fun kv => !((p :: ps).contains kv.1)) := by
      rw [List.filter_filter]
      apply List.filter_congr
      intro kv _
      by_cases hp : kv.1 = p
      · simp [hp]
      · simp [hp, Ne.symm hp]
    cases u
    simp only [List.filter_filter] at hq ⊢
    rw [hq]

/-- Claim C10: normalizeUrl is total; when URL construction fails it returns
the input url unchanged, and otherwise it returns the serialization of the
resolution of url against baseUrl with every listed tracking query parameter
removed, so no tracking key survives in the result's query. -/
theorem C10_normalizeUrl_total (url baseUrl : String) :
    (urlResolve url baseUrl = none → normalizeUrl url baseUrl = url) ∧
    (∀ u : UrlRec, urlResolve url baseUrl = some u →
      normalizeUrl url baseUrl =
        urlToString { u with query := u.query.filter (fun kv => !(trackingParams.contains kv.1)) } ∧
      ∀ kv ∈ u.query.filter (fun kv => !(trackingParams.contains kv.1)),
        trackingParams.contains kv.1 = false) := by
  constructor
  · intro h
    simp [normalizeUrl, h]
  · intro u h
    constructor
    · have hnu : normalizeUrl url baseUrl =
          urlToString (trackingParams.foldl
            (fun acc p => { acc with query := acc.query.filter (fun kv => kv.1 ≠ p) }) u) := by
        unfold normalizeUrl
        rw [h]
      rw [hnu, foldlDeleteEqFilter]
    · intro kv hkv
      have := List.of_mem_filter hkv
      simpa using this

/-- Witness for C10: a concrete url with one tracking and one ordinary
parameter resolves, normalizes with the tracking parameter removed, and the
surviving parameter is not a tracking key. -/
theorem C10_normalizeUrl_total_witness :
    urlResolve "https://a.com/p?utm_source=x&id=2" "https://a.com/" =
      some ⟨"https", "a.com", "/p", [("utm_source", "x"), ("id", "2")]⟩ ∧
    normalizeUrl "https://a.com/p?utm_source=x&id=2" "https://a.com/" = "https://a.com/p?id=2" ∧
    trackingParams.contains "id" = false := by
  have h := (C10_normalizeUrl_total "https://a.com/p?utm_source=x&id=2" "https://a.com/").2
    ⟨"https", "a.com", "/p", [("utm_source", "x"), ("id", "2")]⟩ (by decide)
  refine ⟨by decide, h.1.trans (by decide), ?_⟩
  exact h.2 ("id", "2") (by decide)

/-! ## Claim C6: a timeout aborts the retry loop immediately -/

/-- One unfolding step of the attempt loop at an abort outcome: within the
retry budget, a thrown message containing the cancellation marker yields the
timeout failure at once. -/
theorem fetchUrlFromAbort (timeoutMs retryCount : Nat)
    (attempts : Nat → AttemptOutcome) (i : Nat) (msg lastError : String)
    (hi : i ≤ retryCount) (hat : attempts i = .thrown msg)
    (hab : strContains msg "abort" = true) :
    fetchUrlFrom timeoutMs retryCount attempts i lastError =
      ⟨false, "", "", some ("Timeout after " ++ toString timeoutMs ++ "ms")⟩ := by
  rw [fetchUrlFrom]
  have : ¬ i > retryCount := by omega
  simp [this, hat, hab]

/-- The loop started at attempt 0 reaches attempt i when every earlier
attempt has a retriable outcome. -/
theorem fetchUrlReaches (timeoutMs retryCount : Nat)
    (attempts : Nat → AttemptOutcome) :
    ∀ i : Nat, i ≤ retryCount + 1 →
      (∀ j, j < i → retriableOutcome (attempts j)) →
      ∃ lastError, fetchUrl timeoutMs retryCount attempts =
        fetchUrlFrom timeoutMs retryCount attempts i lastError := by
  intro i
  induction i with
  | zero => intro _ _; exact ⟨"", rfl⟩
  | succ i ih =>
    intro hle hprev
    obtain ⟨le0, h0⟩ := ih (by omega) (fun j hj => hprev j (by omega))
    have hretry := hprev i (by omega)
    have hile : ¬ i > retryCount := by omega
    cases hat : attempts i with
    | success ct txt => rw [hat] at hretry; exact absurd hretry (by simp [retriableOutcome])
    | httpError status statusText =>
      rw [hat] at hretry
      have hstat : ¬(400 ≤ status ∧ status < 500 ∧ status ≠ 429) := hretry
      refine ⟨"HTTP " ++ toString status ++ ": " ++ statusText, ?_⟩
      rw [h0, fetchUrlFrom]
      simp [hile, hat, hstat]
    | thrown msg =>
      rw [hat] at hretry
      have hnab : strContains msg "abort" = false := hretry
      refine ⟨msg, ?_⟩
      rw [h0, fetchUrlFrom]
      simp [hile, hat, hnab]

/-- Combined form: if the loop reaches attempt i and that attempt aborts,
fetchUrl returns the timeout failure. -/
theorem fetchUrlAbortResult (timeoutMs retryCount i : Nat)
    (attempts : Nat → AttemptOutcome) (msg : String)
    (hi : i ≤ retryCount)
    (hprev : ∀ j, j < i → retriableOutcome (attempts j))
    (hat : attempts i = .thrown msg)
    (hab : strContains msg "abort" = true) :
    fetchUrl timeoutMs retryCount attempts =
      ⟨false, "", "", some ("Timeout after " ++ toString timeoutMs ++ "ms")⟩ := by
  obtain ⟨le0, h0⟩ := fetchUrlReaches timeoutMs retryCount attempts i (by omega) hprev
  rw [h0]
  exact fetchUrlFromAbort timeoutMs retryCount attempts i msg le0 hi hat hab

/-- Claim C6: for every attempt index within the retry budget that is
reached and cancelled by the per-attempt timeout, fetchUrl returns the
timeout failure immediately, and the outcomes of any later attempt are never
consulted (any oracle agreeing up to the aborting attempt yields the same
result), for every retry budget. -/
theorem C6_timeout_not_retried (timeoutMs retryCount i : Nat)
    (attempts : Nat → AttemptOutcome) (msg : String)
    (hi : i ≤ retryCount)
    (hprev : ∀ j, j < i → retriableOutcome (attempts j))
    (hat : attempts i = .thrown msg)
    (hab : strContains msg "abort" = true) :
    fetchUrl timeoutMs retryCount attempts =
      ⟨false, "", "", some ("Timeout after " ++ toString timeoutMs ++ "ms")⟩ ∧
    ∀ attempts2 : Nat → AttemptOutcome,
      (∀ j, j ≤ i → attempts2 j = attempts j) →
      fetchUrl timeoutMs retryCount attempts2 =
        ⟨false, "", "", some ("Timeout after " ++ toString timeoutMs ++ "ms")⟩ := by
  constructor
  · exact fetchUrlAbortResult timeoutMs retryCount i attempts msg hi hprev hat hab
  · intro attempts2 hagree
    refine fetchUrlAbortResult timeoutMs retryCount i attempts2 msg hi ?_ ?_ hab
    · intro j hj
      rw [hagree j (by omega)]
      exact hprev j hj
    · rw [hagree i (by omega)]
      exact hat

/-- Witness for C6: attempt 0 hits a retryable 500, attempt 1 is cancelled
(its thrown message contains the cancellation marker), and fetchUrl returns
the timeout failure. -/
theorem C6_timeout_not_retried_witness :
    fetchUrl 5000 3
      (fun j => if j = 0 then .httpError 500 "Internal Server Error"
                else .thrown "The operation was aborted") =
      ⟨false, "", "", some "Timeout after 5000ms"⟩ := by
  have h := (C6_timeout_not_retried 5000 3 1
    (fun j => if j = 0 then .httpError 500 "Internal Server Error"
              else .thrown "The operation was aborted")
    "The operation was aborted"
    (by omega)
    (fun j hj => by
      have hj0 : j = 0 := by omega
      subst hj0
      show retriableOutcome (.httpError 500 "Internal Server Error")
      simp [retriableOutcome])
    rfl
    (by decide)).1
  exact h

/-! ## Claims C1 and C2: the watermark-based change detector -/

/-- Claim C1: with a stored watermark and a newest-first extraction whose
first locator differs from it, the check reports exactly the prefix strictly
before the first occurrence of the watermark locator, the whole list when
the watermark locator is absent, and the committing variant advances the
watermark to the first element's locator.  The watermark is assumed
non-empty: an empty-string watermark is falsy and takes the first-time
branch, and watermark values only ever come from the commit guard, which
refuses empty locators.  Likewise the first element's locator is non-empty
in the commit clause, as the commit guard's JS truthiness check requires and
every parser's output satisfies. -/
theorem C1_watermark_prefix_walk (tool : Tool) (nu prev : String)
    (latest : ParsedNewsItem) (rest : List ParsedNewsItem)
    (hnu : tool.news_url = some nu) (hnuNe : nu ≠ "")
    (hwm : tool.last_parsed_url = some prev) (hprevNe : prev ≠ "")
    (hhead : latest.url ≠ prev) :
    (checkForNewContent tool (.ok (latest :: rest))).hasNewContent = true ∧
    (∃ leftover,
      latest :: rest = (checkForNewContent tool (.ok (latest :: rest))).newItems ++ leftover ∧
      (∀ i ∈ (checkForNewContent tool (.ok (latest :: rest))).newItems, i.url ≠ prev) ∧
      (∀ s ss, leftover = s :: ss → s.url = prev)) ∧
    (prev ∉ (latest :: rest).map (fun i => i.url) →
      (checkForNewContent tool (.ok (latest :: rest))).newItems = latest :: rest) ∧
    (latest.url ≠ "" →
      ((checkAndUpdateLastParsed tool (.ok (latest :: rest)) true).2).last_parsed_url =
        some latest.url) := by
  have htr : jsTruthyS tool.news_url = true := by
    rw [hnu]; simp [jsTruthyS, hnuNe]
  have hres : checkForNewContent tool (.ok (latest :: rest)) =
      ⟨decide (((latest :: rest).takeWhile (fun item => item.url ≠ prev)).length > 0),
       (latest :: rest).takeWhile (fun item => item.url ≠ prev),
       some latest.url, some prev⟩ := by
    have hwmtr : jsTruthyS (some prev) = true := by simp [jsTruthyS, hprevNe]
    unfold checkForNewContent
    rw [hwm]
    simp [htr, hwmtr, hhead]
  have htw : (latest :: rest).takeWhile (fun item => item.url ≠ prev) =
      latest :: rest.takeWhile (fun item => item.url ≠ prev) := by
    simp [List.takeWhile_cons, hhead]
  have hnewLen :
      ((latest :: rest).takeWhile (fun item => item.url ≠ prev)).length > 0 := by
    rw [htw]; simp
  have hhas : (checkForNewContent tool (.ok (latest :: rest))).hasNewContent = true := by
    rw [hres]; simpa using hnewLen
  refine ⟨hhas, ?_, ?_, ?_⟩
  · refine ⟨(latest :: rest).dropWhile (fun item => item.url ≠ prev), ?_, ?_, ?_⟩
    · rw [hres]
      exact (List.takeWhile_append_dropWhile (p := fun item => decide (item.url ≠ prev))
        (l := latest :: rest)).symm
    · intro i hi
      rw [hres] at hi
      have := List.mem_takeWhile_imp hi
      simpa using this
    · intro s ss hs
      have := dropWhileHeadFalse (fun item => decide (item.url ≠ prev))
        (latest :: rest) s ss hs
      simpa using this
  · intro habsent
    rw [hres]
    apply takeWhileAll
    intro x hx
    have hmem : x.url ∈ (latest :: rest).map (fun i => i.url) :=
      List.mem_map_of_mem (fun i => i.url) hx
    have hxne : x.url ≠ prev := fun hc => habsent (hc ▸ hmem)
    simpa using hxne
  · intro hne
    unfold checkAndUpdateLastParsed
    rw [hres]
    have hlat : jsTruthyS (some latest.url) = true := by simp [jsTruthyS, hne]
    have hpos : 0 < ((latest :: rest).takeWhile (fun item => !decide (item.url = prev))).length := by
      simpa using hnewLen
    simp [hlat, hpos, updateToolLastParsedUrl, optS, hnewLen]

/-- Witness for C1: the spec scenario — watermark B, extraction
X, A, B, C — reports the prefix X, A and advances the watermark to X. -/
theorem C1_watermark_prefix_walk_witness :
    (checkForNewContent dtool1 (.ok [itX, itA, itB, itC])).hasNewContent = true ∧
    (∃ leftover,
      [itX, itA, itB, itC] =
        (checkForNewContent dtool1 (.ok [itX, itA, itB, itC])).newItems ++ leftover ∧
      (∀ i ∈ (checkForNewContent dtool1 (.ok [itX, itA, itB, itC])).newItems, i.url ≠ "B") ∧
      (∀ s ss, leftover = s :: ss → s.url = "B")) ∧
    ("B" ∉ ([itX, itA, itB, itC].map (fun i => i.url)) →
      (checkForNewContent dtool1 (.ok [itX, itA, itB, itC])).newItems = [itX, itA, itB, itC]) ∧
    (itX.url ≠ "" →
      ((checkAndUpdateLastParsed dtool1 (.ok [itX, itA, itB, itC]) true).2).last_parsed_url =
        some itX.url) :=
  C1_watermark_prefix_walk dtool1 "https://site.one/news" "B" itX [itA, itB, itC]
    rfl (by decide) rfl (by decide) (by decide)

/-- Claim C2: with no stored watermark and a non-empty extraction of any
length, the check reports exactly one new item, the newest one, and the
committing variant sets the watermark to its locator. -/
theorem C2_first_check_bounded (tool : Tool) (nu : String)
    (latest : ParsedNewsItem) (rest : List ParsedNewsItem)
    (hnu : tool.news_url = some nu) (hnuNe : nu ≠ "")
    (hwm : tool.last_parsed_url = none) :
    (checkForNewContent tool (.ok (latest :: rest))).newItems = [latest] ∧
    (checkForNewContent tool (.ok (latest :: rest))).newItems.length = 1 ∧
    (checkForNewContent tool (.ok (latest :: rest))).hasNewContent = true ∧
    (latest.url ≠ "" →
      ((checkAndUpdateLastParsed tool (.ok (latest :: rest)) true).2).last_parsed_url =
        some latest.url) := by
  have htr : jsTruthyS tool.news_url = true := by
    rw [hnu]; simp [jsTruthyS, hnuNe]
  have hres : checkForNewContent tool (.ok (latest :: rest)) =
      ⟨true, [latest], some latest.url, none⟩ := by
    have hwmF : jsTruthyS (none : Option String) = false := rfl
    unfold checkForNewContent
    rw [hwm]
    simp [htr, hwmF]
  refine ⟨by rw [hres], by rw [hres]; rfl, by rw [hres], ?_⟩
  intro hne
  unfold checkAndUpdateLastParsed
  rw [hres]
  have hlat : jsTruthyS (some latest.url) = true := by simp [jsTruthyS, hne]
  simp [hlat, updateToolLastParsedUrl, optS]

/-- Witness for C2: the spec scenario — no watermark, extraction A, B, C —
reports only A and sets the watermark to A. -/
theorem C2_first_check_bounded_witness :
    (checkForNewContent dtool2 (.ok [itA, itB, itC])).newItems = [itA] ∧
    (checkForNewContent dtool2 (.ok [itA, itB, itC])).newItems.length = 1 ∧
    (checkForNewContent dtool2 (.ok [itA, itB, itC])).hasNewContent = true ∧
    (itA.url ≠ "" →
      ((checkAndUpdateLastParsed dtool2 (.ok [itA, itB, itC]) true).2).last_parsed_url =
        some itA.url) :=
  C2_first_check_bounded dtool2 "https://site.two/news" itA [itB, itC]
    rfl (by decide) rfl

/-! ## Claim C7: first-match parser dispatch with guaranteed fallback -/

/-- Every parser other than the HTML fallback has a name different from the
fallback's name. -/
theorem nameNeHtml : ∀ p : ParserKind, p ≠ ParserKind.htmlBlog →
    (parserName p != "HTML Blog Parser") = true := by
  intro p hp
  cases p <;> first | rfl | exact absurd rfl hp

/-- The priority list is the non-fallback parsers followed by the fallback. -/
theorem getAllParsersDecomp : getAllParsers = frontParsers ++ [ParserKind.htmlBlog] := rfl

/-- Over a list without the fallback, the dispatch loop's name-guarded
predicate coincides with plain canParse. -/
theorem findLoopEq (url : String) :
    ∀ l : List ParserKind, (∀ p ∈ l, p ≠ ParserKind.htmlBlog) →
      l.find? (fun p => (parserName p != "HTML Blog Parser") && canParse p url) =
        l.find? (fun p => canParse p url) := by
  intro l
  induction l with
  | nil => intro _; rfl
  | cons a l ih =>
    intro h
    have ha := nameNeHtml a (h a (List.mem_cons_self a l))
    rw [List.find?_cons, List.find?_cons, ha, Bool.true_and,
      ih (fun p hp => h p (List.mem_cons_of_mem a hp))]

/-- Claim C7: findParser returns the first parser in the fixed priority list
whose canParse accepts the locator; it is never null because the fallback at
the end of the list accepts everything; and a matching per-source parser
(here OpenAI, first in the list) pre-empts every later parser, feed parser
included. -/
theorem C7_first_match_dispatch (url : String) :
    findParser url = getAllParsers.find? (fun p => canParse p url) ∧
    (getAllParsers.find? (fun p => canParse p url)).isSome = true ∧
    (canParse ParserKind.openai url = true → findParser url = some ParserKind.openai) := by
  have hfront : ∀ p ∈ frontParsers, p ≠ ParserKind.htmlBlog := by decide
  have hloop :
      getAllParsers.find? (fun p => (parserName p != "HTML Blog Parser") && canParse p url) =
        frontParsers.find? (fun p => canParse p url) := by
    rw [getAllParsersDecomp, List.find?_append, findLoopEq url frontParsers hfront]
    have hhtml : (parserName ParserKind.htmlBlog != "HTML Blog Parser") = false := rfl
    simp [List.find?_cons, hhtml]
  have hspec : getAllParsers.find? (fun p => canParse p url) =
      (frontParsers.find? (fun p => canParse p url)).or (some ParserKind.htmlBlog) := by
    rw [getAllParsersDecomp, List.find?_append]
    have hh : ([ParserKind.htmlBlog].find? fun p => canParse p url) =
        some ParserKind.htmlBlog := by
      simp [List.find?_cons, canParse]
    rw [hh]
  have hmain : findParser url = getAllParsers.find? (fun p => canParse p url) := by
    simp only [findParser]
    rw [hloop]
    cases hfind : frontParsers.find? (fun p => canParse p url) with
    | some p => rw [hspec, hfind]; rfl
    | none =>
      rw [hspec, hfind]
      have hrssmem : ParserKind.rss ∈ frontParsers := by decide
      have hrssF : canParse ParserKind.rss url = false := by
        have := List.find?_eq_none.mp hfind ParserKind.rss hrssmem
        exact Bool.eq_false_iff.mpr this
      have hrssname : getAllParsers.find? (fun p => parserName p == "RSS/Atom Parser") =
          some ParserKind.rss := by decide
      have hhtmlname : getAllParsers.find? (fun p => parserName p == "HTML Blog Parser") =
          some ParserKind.htmlBlog := by decide
      rw [hrssname]
      simp [hrssF, hhtmlname]
  refine ⟨hmain, ?_, ?_⟩
  · rw [hspec]
    cases hfind : frontParsers.find? (fun p => canParse p url) <;> simp
  · intro hopen
    have hfrontOpen : frontParsers.find? (fun p => canParse p url) =
        some ParserKind.openai := by
      unfold frontParsers
      rw [List.find?_cons, hopen]
    rw [hmain, hspec, hfrontOpen]
    rfl

/-- Witness for C7: a locator that matches both the OpenAI patterns and the
feed patterns dispatches to the OpenAI parser, not the feed parser. -/
theorem C7_first_match_dispatch_witness :
    canParse ParserKind.rss "https://openai.com/blog/rss.xml" = true ∧
    findParser "https://openai.com/blog/rss.xml" = some ParserKind.openai :=
  ⟨by decide,
   (C7_first_match_dispatch "https://openai.com/blog/rss.xml").2.2 (by decide)⟩

/-! ## Claim C8: generic fallback template selection and cap -/

/-- The selector loop returns the parses of the first template whose
containers yield at least one parsed item (a template whose containers all
fail to parse is skipped), and nothing when no template yields an item. -/
theorem selectLoopEq (f : DomArticle → Option ParsedNewsItem)
    (page : ArticleSelector → List DomArticle) :
    ∀ sels : List ArticleSelector,
      selectLoop f page sels =
        (match sels.find? (fun sel => !((page sel).filterMap f).isEmpty) with
         | some sel => (page sel).filterMap f
         | none => []) := by
  intro sels
  induction sels with
  | nil => rfl
  | cons sel rest ih =>
    rw [selectLoop, List.find?_cons]
    by_cases hempty : (page sel).length = 0
    · have hnil : page sel = [] := List.length_eq_zero.mp hempty
      simp only [hempty, if_true, hnil, List.filterMap_nil, List.isEmpty_nil,
        Bool.not_true, ih]
      simp
    · simp only [hempty, if_false]
      by_cases hnews : 0 < ((page sel).filterMap f).length
      · have hne : ((page sel).filterMap f).isEmpty = false := by
          cases hfm : (page sel).filterMap f with
          | nil => rw [hfm] at hnews; simp at hnews
          | cons a l => rfl
        simp only [hnews, if_true, hne, Bool.not_false]
      · have hnil : (page sel).filterMap f = [] := by
          cases hfm : (page sel).filterMap f with
          | nil => rfl
          | cons a l => rw [hfm] at hnews; simp at hnews
        simp only [hnews, if_false, hnil, List.isEmpty_nil, Bool.not_true, ih]
        simp

/-- Claim C8 (amended): the generic fallback uses the first selector
template whose containers produce at least one parsed item — a template with
container matches but no parsable container is skipped and later templates
are tried — and the result is capped at 20 items. -/
theorem C8_template_selection_amended (parseDateFn : String → Option Int)
    (page : ArticleSelector → List DomArticle) (baseUrl : String) (since : Int) :
    htmlBlogParse parseDateFn page baseUrl since =
      (match getArticleSelectors.find?
          (fun sel => !((page sel).filterMap (parseArticle parseDateFn baseUrl since)).isEmpty) with
       | some sel => ((page sel).filterMap (parseArticle parseDateFn baseUrl since)).take 20
       | none => []) ∧
    (htmlBlogParse parseDateFn page baseUrl since).length ≤ 20 := by
  have h := selectLoopEq (parseArticle parseDateFn baseUrl since) page getArticleSelectors
  constructor
  · unfold htmlBlogParse
    rw [h]
    cases getArticleSelectors.find?
        (fun sel => !((page sel).filterMap (parseArticle parseDateFn baseUrl since)).isEmpty) with
    | some sel => rfl
    | none => rfl
  · unfold htmlBlogParse
    exact List.length_take_le 20 _

/-- Counterexample to Claim C8 as stated: on this page the first template
that yields container matches is the first one, whose only container fails
to parse; the claim then demands the result of using only this template (the
empty list), but the parser goes on to the second template and returns its
item. -/
theorem C8_counterexample :
    getArticleSelectors.find? (fun sel => !(samplePage sel).isEmpty) = some firstTemplate ∧
    ((samplePage firstTemplate).filterMap
      (parseArticle (fun _ => none) "https://example.com/blog" 0)).take 20 = [] ∧
    htmlBlogParse (fun _ => none) samplePage "https://example.com/blog" 0 =
      [⟨"Hello World Post", "https://example.com/post/hello", none, "", ""⟩] := by
  refine ⟨by decide, by decide, by decide⟩

/-! ## Claim C9: within-pass deduplication by normalized locator -/

/-- When the Anthropic loop body accepts an element, the new seen set is the
normalized link pushed onto the old one, that link was not seen before, and
any produced item carries exactly that link. -/
theorem anthropicStepSome (parseDateFn : String → Option Int) (url : String)
    (since : Int) (seen : List String) (e : AElem)
    (s2 : List String) (res : Option ParsedNewsItem)
    (h : anthropicStep parseDateFn url since seen e = some (s2, res)) :
    ∃ link, s2 = link :: seen ∧ seen.contains link = false ∧
      ∀ it, res = some it → it.url = link := by
  unfold anthropicStep at h
  by_cases h1 : optS e.chosenHref = "" ∨ optS e.chosenHref = "#" ∨
      strStartsWith (optS e.chosenHref) "mailto:" = true ∨
      strStartsWith (optS e.chosenHref) "tel:" = true
  · exfalso
    rcases h1 with h1 | h1 | h1 | h1 <;> simp [h1] at h
  · push_neg at h1
    obtain ⟨h1a, h1b, h1c, h1d⟩ := h1
    rw [if_neg (by simp [h1a, h1b, Bool.eq_false_iff.mpr h1c, Bool.eq_false_iff.mpr h1d])] at h
    by_cases h2 : strContains (optS e.chosenHref) "/news/" = true
    · rw [if_neg (by simp [h2])] at h
      by_cases h3 : cleanText (jsOrS e.findTitleText e.chosenLinkText) = "" ∨
          (cleanText (jsOrS e.findTitleText e.chosenLinkText)).length < 10
      · exfalso
        rcases h3 with h3 | h3 <;> simp [h3] at h
      · push_neg at h3
        rw [if_neg (by simp [h3.1, Nat.not_lt.mpr h3.2])] at h
        by_cases h4 : seen.contains (normalizeUrl (optS e.chosenHref) url) = true
        · rw [if_pos h4] at h
          exact absurd h (by simp)
        · rw [if_neg h4] at h
          refine ⟨normalizeUrl (optS e.chosenHref) url, ?_, Bool.eq_false_iff.mpr h4, ?_⟩
          · by_cases h5 : isAfterDate (parseDateFn (jsOrS e.dateElText
                (jsOrS (optS e.datetimeAttr) ""))) since = true
            · rw [if_pos h5] at h
              exact (Prod.mk.injEq _ _ _ _ ▸ (Option.some.injEq _ _ ▸ h)).1.symm
            · rw [if_neg h5] at h
              exact (Prod.mk.injEq _ _ _ _ ▸ (Option.some.injEq _ _ ▸ h)).1.symm
          · intro it hit
            by_cases h5 : isAfterDate (parseDateFn (jsOrS e.dateElText
                (jsOrS (optS e.datetimeAttr) ""))) since = true
            · rw [if_pos h5] at h
              have hres := (Prod.mk.injEq _ _ _ _ ▸ (Option.some.injEq _ _ ▸ h)).2
              rw [← hres] at hit
              cases hit
              rfl
            · rw [if_neg h5] at h
              have hres := (Prod.mk.injEq _ _ _ _ ▸ (Option.some.injEq _ _ ▸ h)).2
              rw [← hres] at hit
              cases hit
    · exfalso
      rw [if_pos (by simp [Bool.eq_false_iff.mpr h2])] at h
      exact absurd h (by simp)

/-- The Anthropic element loop never emits a locator twice nor one already
in the seen set. -/
theorem anthropicLoopNodup (parseDateFn : String → Option Int) (url : String)
    (since : Int) :
    ∀ (es : List AElem) (seen : List String),
      ((anthropicLoop parseDateFn url since es seen).map (fun i => i.url)).Nodup ∧
      ∀ u ∈ (anthropicLoop parseDateFn url since es seen).map (fun i => i.url),
        seen.contains u = false := by
  intro es
  induction es with
  | nil =>
    intro seen
    simp only [anthropicLoop, List.map_nil]
    exact ⟨List.nodup_nil, by intro u hu; simp at hu⟩
  | cons e rest ih =>
    intro seen
    rw [anthropicLoop]
    cases hstep : anthropicStep parseDateFn url since seen e with
    | none => exact ih seen
    | some pr =>
      obtain ⟨s2, res⟩ := pr
      obtain ⟨link, hs2, hnew, hres⟩ :=
        anthropicStepSome parseDateFn url since seen e s2 res hstep
      cases res with
      | none =>
        obtain ⟨ihn, ihs⟩ := ih s2
        refine ⟨ihn, ?_⟩
        intro u hu
        have := ihs u hu
        rw [hs2] at this
        simp only [List.contains_cons, Bool.or_eq_false_iff] at this
        exact this.2
      | some item =>
        have hurl : item.url = link := hres item rfl
        obtain ⟨ihn, ihs⟩ := ih s2
        constructor
        · rw [List.map_cons]
          refine List.nodup_cons.mpr ⟨?_, ihn⟩
          intro hmem
          have := ihs item.url hmem
          rw [hs2, hurl] at this
          simp at this
        · intro u hu
          rw [List.map_cons] at hu
          cases List.mem_cons.mp hu with
          | inl hhead => rw [hhead, hurl]; exact hnew
          | inr htail =>
            have := ihs u htail
            rw [hs2] at this
            simp only [List.contains_cons, Bool.or_eq_false_iff] at this
            exact this.2

/-- Claim C9 (amended): the Anthropic parser deduplicates by normalized
locator within one extraction pass — its candidate list never contains two
items with the same locator.  (The OpenAI parser performs no within-pass
deduplication; see the counterexample.) -/
theorem C9_dedup_amended (parseDateFn : String → Option Int) (url : String)
    (since : Int) (elems : List AElem) :
    ((anthropicParse parseDateFn url since elems).map (fun i => i.url)).Nodup := by
  unfold anthropicParse
  have h := (anthropicLoopNodup parseDateFn url since elems []).1
  rw [List.map_take]
  exact h.sublist (List.take_sublist 20 _)

/-- Counterexample to Claim C9 as stated: the OpenAI parser, fed the same
anchor twice (a site rendering one article in two containers), returns two
items with the same normalized locator. -/
theorem C9_counterexample :
    (openaiParse (fun _ => none) "https://openai.com/news" 0 [oaAnchor, oaAnchor]).map
        (fun i => i.url) =
      ["https://openai.com/index/launch", "https://openai.com/index/launch"] ∧
    ¬ ((openaiParse (fun _ => none) "https://openai.com/news" 0 [oaAnchor, oaAnchor]).map
        (fun i => i.url)).Nodup := by
  refine ⟨by decide, ?_⟩
  intro h
  rw [show (openaiParse (fun _ => none) "https://openai.com/news" 0 [oaAnchor, oaAnchor]).map
        (fun i => i.url) =
      ["https://openai.com/index/launch", "https://openai.com/index/launch"] from by decide] at h
  simp at h

/-! ## Storage and pipeline structure lemmas -/

/-- The upsert-ignore insert only appends, and appended rows carry a null
digest marker. -/
theorem insertNewsItemsItems :
    ∀ (inputs : List NewsItemInput) (db : DB),
      ∃ appended, (insertNewsItems db inputs).items = db.items ++ appended ∧
        ∀ n ∈ appended, n.digest_date = none := by
  intro inputs
  induction inputs with
  | nil => intro db; exact ⟨[], by simp [insertNewsItems], by intro n h; simp at h⟩
  | cons inp rest ih =>
    intro db
    rw [insertNewsItems]
    by_cases hdup : db.items.any (fun it => it.hash == inp.hash) = true
    · rw [if_pos hdup]; exact ih db
    · rw [if_neg hdup]
      obtain ⟨ap, hap, hnone⟩ := ih
        { db with
          items := db.items ++
            [⟨db.nextId, inp.tool_id, inp.title, inp.url, inp.published_at,
              inp.raw_content, inp.snippet, inp.importance, inp.tags, inp.lang,
              inp.hash, none⟩],
          nextId := db.nextId + 1 }
      refine ⟨⟨db.nextId, inp.tool_id, inp.title, inp.url, inp.published_at,
          inp.raw_content, inp.snippet, inp.importance, inp.tags, inp.lang,
          inp.hash, none⟩ :: ap, ?_, ?_⟩
      · rw [hap]; simp
      · intro n hn
        cases List.mem_cons.mp hn with
        | inl h => rw [h]
        | inr h => exact hnone n h

/-- The insert never touches the digests table. -/
theorem insertNewsItemsDigests :
    ∀ (inputs : List NewsItemInput) (db : DB),
      (insertNewsItems db inputs).digests = db.digests := by
  intro inputs
  induction inputs with
  | nil => intro db; rfl
  | cons inp rest ih =>
    intro db
    rw [insertNewsItems]
    by_cases hdup : db.items.any (fun it => it.hash == inp.hash) = true
    · rw [if_pos hdup]; exact ih db
    · rw [if_neg hdup]; exact ih _

/-- Rows present before an insert are still present after it. -/
theorem insertNewsItemsMem (inputs : List NewsItemInput) (db : DB)
    (it : StoredItem) (h : it ∈ db.items) :
    it ∈ (insertNewsItems db inputs).items := by
  obtain ⟨ap, hap, _⟩ := insertNewsItemsItems inputs db
  rw [hap]
  exact List.mem_append_left ap h

/-- After the upsert-ignore insert, every input's hash is present among the
stored rows (as a fresh row or a pre-existing conflict row). -/
theorem insertNewsItemsHash :
    ∀ (inputs : List NewsItemInput) (db : DB) (inp : NewsItemInput),
      inp ∈ inputs →
      ∃ it ∈ (insertNewsItems db inputs).items, it.hash = inp.hash := by
  intro inputs
  induction inputs with
  | nil => intro db inp h; simp at h
  | cons a rest ih =>
    intro db inp hmem
    rw [insertNewsItems]
    by_cases hdup : db.items.any (fun it => it.hash == a.hash) = true
    · rw [if_pos hdup]
      cases List.mem_cons.mp hmem with
      | inl heq =>
        obtain ⟨it0, hit0, hh⟩ := List.any_eq_true.mp hdup
        exact ⟨it0, insertNewsItemsMem rest db it0 hit0, heq ▸ beq_iff_eq.mp hh⟩
      | inr htail => exact ih db inp htail
    · rw [if_neg hdup]
      cases List.mem_cons.mp hmem with
      | inl heq =>
        refine ⟨⟨db.nextId, a.tool_id, a.title, a.url, a.published_at,
          a.raw_content, a.snippet, a.importance, a.tags, a.lang, a.hash, none⟩,
          ?_, by rw [heq]⟩
        apply insertNewsItemsMem
        simp
      | inr htail => exact ih _ inp htail

/-- Saving a digest leaves the items table unchanged. -/
theorem saveDailyDigestItems (db : DB) (date md ru sh : String)
    (tl : List String) :
    (saveDailyDigest db date md ru sh tl).items = db.items := by
  unfold saveDailyDigest
  by_cases h : (db.digests.find? (fun d => d.date == date)).isSome = true <;>
    simp [h]

/-- After saving a digest for a date, a digest row for that date exists. -/
theorem getDailyDigestSave (db : DB) (date md ru sh : String)
    (tl : List String) :
    (getDailyDigest (saveDailyDigest db date md ru sh tl) date).isSome = true := by
  unfold saveDailyDigest getDailyDigest
  by_cases h : (db.digests.find? (fun d => d.date == date)).isSome = true
  · rw [if_pos h]
    apply List.find?_isSome.mpr
    obtain ⟨x, hx, hpx⟩ := List.find?_isSome.mp h
    refine ⟨(⟨date, md, if ru ≠ "" then some ru else none, sh, tl⟩ : DigestRow), ?_, by simp⟩
    have hmem := List.mem_map_of_mem
      (fun d => if (d.date == date) = true
        then (⟨date, md, if ru ≠ "" then some ru else none, sh, tl⟩ : DigestRow)
        else d) hx
    simp only [hpx, if_true] at hmem
    exact hmem
  · rw [if_neg h]
    apply List.find?_isSome.mpr
    exact ⟨⟨date, md, if ru ≠ "" then some ru else none, sh, tl⟩, by simp, by simp⟩

/-- A row of the marked table whose id is in the marked set carries the
digest date. -/
theorem markNewsAsDigestedMem (db : DB) (ids : List Nat) (date : String)
    (it : StoredItem) (hmem : it ∈ (markNewsAsDigested db ids date).items)
    (hid : it.id ∈ ids) : it.digest_date = some date := by
  unfold markNewsAsDigested at hmem
  simp only [List.mem_map] at hmem
  obtain ⟨it0, _, hval⟩ := hmem
  by_cases hin : ids.contains it0.id = true
  · rw [if_pos hin] at hval
    rw [← hval]
  · rw [if_neg hin] at hval
    exfalso
    rw [← hval] at hid
    exact hin (by simpa using hid)

/-- The fetch step never touches the digests table. -/
theorem fetchAndInsertNewsDigests (env : PipelineEnv) (db : DB) :
    ((fetchAndInsertNews env db).2).digests = db.digests := by
  unfold fetchAndInsertNews
  by_cases h0 : (getActiveTools db).length = 0
  · simp [h0]
  · simp only [h0, if_false]
    by_cases h1 : (fetchLoop env (getActiveTools db) ⟨[], 0, 0, []⟩).allNewsItems.length > 0
    · simp only [h1, if_true]
      exact insertNewsItemsDigests _ db
    · simp [h1]

/-- The fetch step only appends items, all with a null digest marker. -/
theorem fetchAndInsertNewsItems (env : PipelineEnv) (db : DB) :
    ∃ appended, ((fetchAndInsertNews env db).2).items = db.items ++ appended ∧
      ∀ n ∈ appended, n.digest_date = none := by
  unfold fetchAndInsertNews
  by_cases h0 : (getActiveTools db).length = 0
  · exact ⟨[], by simp [h0], by intro n h; simp at h⟩
  · simp only [h0, if_false]
    by_cases h1 : (fetchLoop env (getActiveTools db) ⟨[], 0, 0, []⟩).allNewsItems.length > 0
    · simp only [h1, if_true]
      exact insertNewsItemsItems _ db
    · exact ⟨[], by simp [h1], by intro n h; simp at h⟩

/-- Unfolding equation of the per-tool loop at a throwing tool. -/
theorem fetchLoopConsError (env : PipelineEnv) (tool : Tool) (rest : List Tool)
    (acc : FetchAcc) (e : String) (h : env.fetchOutcome tool = .error e) :
    fetchLoop env (tool :: rest) acc =
      fetchLoop env rest
        { acc with errors :=
            acc.errors ++ ["Error processing " ++ tool.name ++ ": " ++ e] } := by
  simp [fetchLoop, h]

/-- Unfolding equation of the per-tool loop at a tool with no new items. -/
theorem fetchLoopConsOkEmpty (env : PipelineEnv) (tool : Tool) (rest : List Tool)
    (acc : FetchAcc) (parsedNews : List ParsedNewsItem)
    (h : env.fetchOutcome tool = .ok parsedNews) (hlen : parsedNews.length = 0) :
    fetchLoop env (tool :: rest) acc = fetchLoop env rest acc := by
  simp [fetchLoop, h, hlen]

/-- Unfolding equation of the per-tool loop at a tool with new items. -/
theorem fetchLoopConsOkItems (env : PipelineEnv) (tool : Tool) (rest : List Tool)
    (acc : FetchAcc) (parsedNews : List ParsedNewsItem)
    (h : env.fetchOutcome tool = .ok parsedNews) (hlen : ¬ parsedNews.length = 0) :
    fetchLoop env (tool :: rest) acc =
      fetchLoop env rest
        { allNewsItems := acc.allNewsItems ++ transformNewsItems env parsedNews tool,
          totalNews := acc.totalNews + (transformNewsItems env parsedNews tool).length,
          toolsProcessed := acc.toolsProcessed + 1,
          errors := acc.errors } := by
  simp [fetchLoop, h, hlen]

/-- Errors already accumulated survive the rest of the per-tool loop. -/
theorem fetchLoopErrorsMono (env : PipelineEnv) :
    ∀ (tools : List Tool) (acc : FetchAcc) (x : String),
      x ∈ acc.errors → x ∈ (fetchLoop env tools acc).errors := by
  intro tools
  induction tools with
  | nil => intro acc x hx; exact hx
  | cons tool rest ih =>
    intro acc x hx
    cases houtcome : env.fetchOutcome tool with
    | error e =>
      rw [fetchLoopConsError env tool rest acc e houtcome]
      exact ih _ x (List.mem_append_left _ hx)
    | ok parsedNews =>
      by_cases hlen : parsedNews.length = 0
      · rw [fetchLoopConsOkEmpty env tool rest acc parsedNews houtcome hlen]
        exact ih acc x hx
      · rw [fetchLoopConsOkItems env tool rest acc parsedNews houtcome hlen]
        exact ih _ x hx

/-- A tool whose processing throws leaves its error message in the loop's
error list. -/
theorem fetchLoopErrorsMem (env : PipelineEnv) (tool : Tool) (e : String)
    (herr : env.fetchOutcome tool = .error e) :
    ∀ (tools : List Tool) (acc : FetchAcc), tool ∈ tools →
      ("Error processing " ++ tool.name ++ ": " ++ e) ∈ (fetchLoop env tools acc).errors := by
  intro tools
  induction tools with
  | nil => intro acc h; simp at h
  | cons t rest ih =>
    intro acc hmem
    cases List.mem_cons.mp hmem with
    | inl hhead =>
      subst hhead
      rw [fetchLoopConsError env tool rest acc e herr]
      apply fetchLoopErrorsMono
      simp
    | inr htail =>
      cases houtcome : env.fetchOutcome t with
      | error e2 =>
        rw [fetchLoopConsError env t rest acc e2 houtcome]
        exact ih _ htail
      | ok parsedNews =>
        by_cases hlen : parsedNews.length = 0
        · rw [fetchLoopConsOkEmpty env t rest acc parsedNews houtcome hlen]
          exact ih acc htail
        · rw [fetchLoopConsOkItems env t rest acc parsedNews houtcome hlen]
          exact ih _ htail

/-- Inputs already accumulated survive the rest of the per-tool loop. -/
theorem fetchLoopItemsMono (env : PipelineEnv) :
    ∀ (tools : List Tool) (acc : FetchAcc) (x : NewsItemInput),
      x ∈ acc.allNewsItems → x ∈ (fetchLoop env tools acc).allNewsItems := by
  intro tools
  induction tools with
  | nil => intro acc x hx; exact hx
  | cons tool rest ih =>
    intro acc x hx
    cases houtcome : env.fetchOutcome tool with
    | error e =>
      rw [fetchLoopConsError env tool rest acc e houtcome]
      exact ih _ x hx
    | ok parsedNews =>
      by_cases hlen : parsedNews.length = 0
      · rw [fetchLoopConsOkEmpty env tool rest acc parsedNews houtcome hlen]
        exact ih acc x hx
      · rw [fetchLoopConsOkItems env tool rest acc parsedNews houtcome hlen]
        exact ih _ x (List.mem_append_left _ hx)

/-- Every item of every successfully processed tool reaches the loop's
accumulated inputs, with the dedup hash computed from its locator and
title. -/
theorem fetchLoopItemsMem (env : PipelineEnv) (tool2 : Tool)
    (items : List ParsedNewsItem) (p : ParsedNewsItem)
    (hok : env.fetchOutcome tool2 = .ok items) (hp : p ∈ items) :
    ∀ (tools : List Tool) (acc : FetchAcc), tool2 ∈ tools →
      ∃ inp ∈ (fetchLoop env tools acc).allNewsItems,
        inp.hash = env.hashFn (p.url ++ "|" ++ p.title) := by
  intro tools
  induction tools with
  | nil => intro acc h; simp at h
  | cons t rest ih =>
    intro acc hmem
    cases List.mem_cons.mp hmem with
    | inl hhead =>
      subst hhead
      have hlen : ¬ items.length = 0 := by
        intro h0
        rw [List.length_eq_zero.mp h0] at hp
        simp at hp
      rw [fetchLoopConsOkItems env tool2 rest acc items hok hlen]
      refine ⟨⟨tool2.id, p.title, p.url, p.publishedAt.map env.isoOf, p.rawContent,
        p.snippet, none, [], tool2.lang, env.hashFn (p.url ++ "|" ++ p.title)⟩, ?_, rfl⟩
      apply fetchLoopItemsMono
      apply List.mem_append_right
      exact List.mem_map_of_mem _ hp
    | inr htail =>
      cases houtcome : env.fetchOutcome t with
      | error e2 =>
        rw [fetchLoopConsError env t rest acc e2 houtcome]
        exact ih _ htail
      | ok parsedNews =>
        by_cases hlen : parsedNews.length = 0
        · rw [fetchLoopConsOkEmpty env t rest acc parsedNews houtcome hlen]
          exact ih acc htail
        · rw [fetchLoopConsOkItems env t rest acc parsedNews houtcome hlen]
          exact ih _ htail

/-- The items table after either branch of the single-date pipeline is the
items table left by its fetch step. -/
theorem dailyItemsEq (env : PipelineEnv) (opts : PipelineOptions) (db : DB) :
    ((runDailyDigestPipeline env opts db).2).items =
      ((if !opts.skipNewsFetch then fetchAndInsertNews env db
        else (⟨0, 0, []⟩, db)).2).items := by
  simp only [runDailyDigestPipeline]
  generalize (if !opts.skipNewsFetch then fetchAndInsertNews env db
    else ((⟨0, 0, []⟩ : FetchNewsResult), db)) = F
  repeat' split
  all_goals
    first
      | rfl
      | exact saveDailyDigestItems _ _ _ _ _ _

/-- Both exits of the single-date pipeline report ok. -/
theorem dailyOk (env : PipelineEnv) (opts : PipelineOptions) (db : DB) :
    (runDailyDigestPipeline env opts db).1.ok = true := by
  simp only [runDailyDigestPipeline]
  split <;> rfl

/-- Errors recorded by the fetch step survive into the pipeline result. -/
theorem dailyErrorsSup (env : PipelineEnv) (opts : PipelineOptions) (db : DB)
    (x : String)
    (hx : x ∈ ((if !opts.skipNewsFetch then fetchAndInsertNews env db
      else (⟨0, 0, []⟩, db)).1).errors) :
    x ∈ (runDailyDigestPipeline env opts db).1.errors := by
  simp only [runDailyDigestPipeline]
  generalize hF : (if !opts.skipNewsFetch then fetchAndInsertNews env db
    else ((⟨0, 0, []⟩ : FetchNewsResult), db)) = F at hx ⊢
  repeat' split
  all_goals
    first
      | exact hx
      | exact List.mem_append_left _ hx

/-! ## Claim C5: per-source failure isolation -/

/-- Claim C5: when processing one Source throws during the ingestion loop,
its error is recorded in the result's error list, the pipeline still reports
ok, and the items of every successfully processed Source (before or after
the failing one) are persisted — their dedup hash is present among the
stored rows. -/
theorem C5_source_failure_isolated (env : PipelineEnv) (opts : PipelineOptions)
    (db : DB) (tool : Tool) (e : String)
    (hskip : opts.skipNewsFetch = false)
    (htool : tool ∈ getActiveTools db)
    (herr : env.fetchOutcome tool = .error e) :
    ("Error processing " ++ tool.name ++ ": " ++ e) ∈
      (runDailyDigestPipeline env opts db).1.errors ∧
    (runDailyDigestPipeline env opts db).1.ok = true ∧
    ∀ tool2 ∈ getActiveTools db, ∀ items, env.fetchOutcome tool2 = .ok items →
      ∀ p ∈ items, ∃ it ∈ ((runDailyDigestPipeline env opts db).2).items,
        it.hash = env.hashFn (p.url ++ "|" ++ p.title) := by
  have hpair : (if !opts.skipNewsFetch then fetchAndInsertNews env db
      else ((⟨0, 0, []⟩ : FetchNewsResult), db)) = fetchAndInsertNews env db := by
    rw [hskip]
    rfl
  have hlen0 : ¬ (getActiveTools db).length = 0 := by
    intro h0
    rw [List.length_eq_zero.mp h0] at htool
    simp at htool
  have hFerr : (fetchAndInsertNews env db).1.errors =
      (fetchLoop env (getActiveTools db) ⟨[], 0, 0, []⟩).errors := by
    simp [fetchAndInsertNews, hlen0]
  refine ⟨?_, dailyOk env opts db, ?_⟩
  · apply dailyErrorsSup
    rw [hpair, hFerr]
    exact fetchLoopErrorsMem env tool e herr (getActiveTools db) ⟨[], 0, 0, []⟩ htool
  · intro tool2 h2 items hok p hp
    obtain ⟨inp, hinp, hhash⟩ :=
      fetchLoopItemsMem env tool2 items p hok hp (getActiveTools db) ⟨[], 0, 0, []⟩ h2
    have hpos : (fetchLoop env (getActiveTools db) ⟨[], 0, 0, []⟩).allNewsItems.length > 0 :=
      List.length_pos_of_mem hinp
    have hdb2 : (fetchAndInsertNews env db).2 =
        insertNewsItems db (fetchLoop env (getActiveTools db) ⟨[], 0, 0, []⟩).allNewsItems := by
      simp [fetchAndInsertNews, hlen0, hpos]
    obtain ⟨it, hit, hh⟩ := insertNewsItemsHash _ db inp hinp
    refine ⟨it, ?_, hh.trans hhash⟩
    rw [dailyItemsEq, hpair, hdb2]
    exact hit

/-- Witness for C5: of two active tools, processing the first throws and the
second succeeds; the error is recorded, the run is ok, and the second tool's
item is persisted. -/
theorem C5_source_failure_isolated_witness :
    ("Error processing " ++ wTool1.name ++ ": " ++ "fetch failed") ∈
      (runDailyDigestPipeline wEnv wOpts wDb).1.errors ∧
    (runDailyDigestPipeline wEnv wOpts wDb).1.ok = true ∧
    ∃ it ∈ ((runDailyDigestPipeline wEnv wOpts wDb).2).items,
      it.hash = wEnv.hashFn (wItem.url ++ "|" ++ wItem.title) := by
  have h := C5_source_failure_isolated wEnv wOpts wDb wTool1 "fetch failed"
    rfl (by decide) rfl
  exact ⟨h.1, h.2.1, h.2.2 wTool2 (by decide) [wItem] rfl wItem (by simp)⟩

/-! ## Claim C4: idempotent re-run of the single-date pipeline -/

/-- A run that freshly generated a digest leaves a digest row for its target
date in the store. -/
theorem dailyGenSaved (env : PipelineEnv) (opts : PipelineOptions) (db : DB)
    (hgen : (runDailyDigestPipeline env opts db).1.digestGenerated = true) :
    (getDailyDigest ((runDailyDigestPipeline env opts db).2) opts.targetDateStr).isSome = true := by
  simp only [runDailyDigestPipeline] at hgen ⊢
  by_cases hcache : ((getDailyDigest db opts.targetDateStr).isSome &&
      !opts.forceRegenerate) = true
  · rw [if_pos hcache] at hgen
    simp at hgen
  · rw [if_neg hcache] at hgen ⊢
    by_cases hlen : (getTodayNews ((if !opts.skipNewsFetch then fetchAndInsertNews env db
        else ((⟨0, 0, []⟩ : FetchNewsResult), db)).2) opts.targetDateStr).length > 0
    · simp only [hlen, if_true]
      exact getDailyDigestSave _ _ _ _ _ _
    · simp only [hlen, if_false] at hgen
      simp at hgen

/-- With an existing digest and no forced regeneration, the pipeline serves
from cache: ok, cache flag set, no generation, digests table untouched. -/
theorem dailyCacheBranch (env : PipelineEnv) (opts : PipelineOptions) (db : DB)
    (hsome : (getDailyDigest db opts.targetDateStr).isSome = true)
    (hforce : opts.forceRegenerate = false) :
    (runDailyDigestPipeline env opts db).1.ok = true ∧
    (runDailyDigestPipeline env opts db).1.digestFromCache = true ∧
    (runDailyDigestPipeline env opts db).1.digestGenerated = false ∧
    ((runDailyDigestPipeline env opts db).2).digests = db.digests := by
  have hcond : ((getDailyDigest db opts.targetDateStr).isSome &&
      !opts.forceRegenerate) = true := by
    rw [hsome, hforce]
    rfl
  simp only [runDailyDigestPipeline, hcond, if_true]
  refine ⟨trivial, trivial, trivial, ?_⟩
  by_cases hskip : opts.skipNewsFetch = true
  · simp [hskip]
  · have hskip' : opts.skipNewsFetch = false := by
      cases h : opts.skipNewsFetch
      · rfl
      · exact absurd h hskip
    simp [hskip', fetchAndInsertNewsDigests]

/-- Claim C4: after a first run that freshly generated the digest for the
target date, a second run without forced regeneration finds the existing
digest, reports ok, digest-from-cache and no generation, and leaves the
digests table (hence the digest row for that date) unchanged. -/
theorem C4_idempotent_rerun (env1 env2 : PipelineEnv) (opts : PipelineOptions)
    (db : DB) (hforce : opts.forceRegenerate = false)
    (hgen : (runDailyDigestPipeline env1 opts db).1.digestGenerated = true) :
    (getDailyDigest ((runDailyDigestPipeline env1 opts db).2) opts.targetDateStr).isSome = true ∧
    (runDailyDigestPipeline env2 opts ((runDailyDigestPipeline env1 opts db).2)).1.ok = true ∧
    (runDailyDigestPipeline env2 opts ((runDailyDigestPipeline env1 opts db).2)).1.digestFromCache = true ∧
    (runDailyDigestPipeline env2 opts ((runDailyDigestPipeline env1 opts db).2)).1.digestGenerated = false ∧
    ((runDailyDigestPipeline env2 opts ((runDailyDigestPipeline env1 opts db).2)).2).digests =
      ((runDailyDigestPipeline env1 opts db).2).digests := by
  have h1 := dailyGenSaved env1 opts db hgen
  have h2 := dailyCacheBranch env2 opts ((runDailyDigestPipeline env1 opts db).2) h1 hforce
  exact ⟨h1, h2.1, h2.2.1, h2.2.2.1, h2.2.2.2⟩

/-- Witness for C4: on the sample store, the first run generates the digest
for 2026-01-05 and the second run is served from cache with the digest row
unchanged. -/
theorem C4_idempotent_rerun_witness :
    (getDailyDigest ((runDailyDigestPipeline cEnv cOpts cDb).2) cOpts.targetDateStr).isSome = true ∧
    (runDailyDigestPipeline cEnv cOpts ((runDailyDigestPipeline cEnv cOpts cDb).2)).1.ok = true ∧
    (runDailyDigestPipeline cEnv cOpts ((runDailyDigestPipeline cEnv cOpts cDb).2)).1.digestFromCache = true ∧
    (runDailyDigestPipeline cEnv cOpts ((runDailyDigestPipeline cEnv cOpts cDb).2)).1.digestGenerated = false ∧
    ((runDailyDigestPipeline cEnv cOpts ((runDailyDigestPipeline cEnv cOpts cDb).2)).2).digests =
      ((runDailyDigestPipeline cEnv cOpts cDb).2).digests :=
  C4_idempotent_rerun cEnv cEnv cOpts cDb rfl (by decide)

/-! ## Claim C3: digest markers of contributing items -/

/-- Claim C3 (amended): the single-date pipeline never sets any item's
digest marker — pre-existing rows are unchanged and freshly inserted rows
are unmarked; the marking of every contributing item with the target date is
performed only by the rolling-window pipeline (when not in dry-run). -/
theorem C3_digest_marking_amended :
    (∀ (env : PipelineEnv) (opts : PipelineOptions) (db : DB),
      ∃ appended, ((runDailyDigestPipeline env opts db).2).items = db.items ++ appended ∧
        ∀ n ∈ appended, n.digest_date = none) ∧
    (∀ (env : PipelineEnv) (ropts : RollingOptions) (db : DB),
      ropts.dryRun = false →
      ∀ it ∈ ((runRollingDigestPipeline env ropts db).2).items,
        it.id ∈ (rollingContributing env ropts db).map (fun n => n.id) →
        it.digest_date = some ropts.todayStr) := by
  constructor
  · intro env opts db
    rw [dailyItemsEq]
    by_cases hskip : opts.skipNewsFetch = true
    · refine ⟨[], ?_, by intro n h; simp at h⟩
      rw [hskip]
      simp
    · have hskip' : opts.skipNewsFetch = false := by
        cases h : opts.skipNewsFetch
        · rfl
        · exact absurd h hskip
      rw [hskip']
      simpa using fetchAndInsertNewsItems env db
  · intro env ropts db hdry it hit hid
    simp only [runRollingDigestPipeline] at hit
    simp only [rollingContributing] at hid
    cases hfn : ropts.fetchNews with
    | true =>
      simp only [hfn, eq_self_iff_true, if_true] at hit hid
      by_cases hzero : ((getNewsForDigest (fetchAndInsertNews env db).2
          ropts.recentCutoff ropts.missedCutoff true ["high"]).1.length +
          (getNewsForDigest (fetchAndInsertNews env db).2
          ropts.recentCutoff ropts.missedCutoff true ["high"]).2.length = 0)
      · exfalso
        have h1 : (getNewsForDigest (fetchAndInsertNews env db).2
            ropts.recentCutoff ropts.missedCutoff true ["high"]).1 = [] :=
          List.length_eq_zero.mp (by omega)
        have h2 : (getNewsForDigest (fetchAndInsertNews env db).2
            ropts.recentCutoff ropts.missedCutoff true ["high"]).2 = [] :=
          List.length_eq_zero.mp (by omega)
        rw [h1, h2] at hid
        simp at hid
      · simp only [hzero, if_false, hdry] at hit
        simp only [Bool.not_false, if_true] at hit
        exact markNewsAsDigestedMem _ _ _ it hit (by simpa using hid)
    | false =>
      simp only [hfn, Bool.false_eq_true, if_false] at hit hid
      by_cases hzero : ((getNewsForDigest db
          ropts.recentCutoff ropts.missedCutoff true ["high"]).1.length +
          (getNewsForDigest db
          ropts.recentCutoff ropts.missedCutoff true ["high"]).2.length = 0)
      · exfalso
        have h1 : (getNewsForDigest db
            ropts.recentCutoff ropts.missedCutoff true ["high"]).1 = [] :=
          List.length_eq_zero.mp (by omega)
        have h2 : (getNewsForDigest db
            ropts.recentCutoff ropts.missedCutoff true ["high"]).2 = [] :=
          List.length_eq_zero.mp (by omega)
        rw [h1, h2] at hid
        simp at hid
      · simp only [hzero, if_false, hdry] at hit
        simp only [Bool.not_false, if_true] at hit
        exact markNewsAsDigestedMem _ _ _ it hit (by simpa using hid)

/-- Witness for C3 (amended): the daily part on the sample store and the
rolling part marking the sample item with the run day. -/
theorem C3_digest_marking_amended_witness :
    (∃ appended, ((runDailyDigestPipeline cEnv cOpts cDb).2).items = cDb.items ++ appended ∧
      ∀ n ∈ appended, n.digest_date = none) ∧
    ({ rItem with digest_date := some "2026-02-04" } : StoredItem).digest_date =
      some rOpts.todayStr :=
  ⟨C3_digest_marking_amended.1 cEnv cOpts cDb,
   C3_digest_marking_amended.2 cEnv rOpts rDb rfl
     { rItem with digest_date := some "2026-02-04" } (by decide) (by decide)⟩

/-- Counterexample to Claim C3 as stated: on the sample store the single-date
pipeline freshly composes and persists the digest for 2026-01-05, the stored
item cItem is its sole contributing item, yet afterwards cItem's digest
marker is still null rather than the target date. -/
theorem C3_counterexample :
    (runDailyDigestPipeline cEnv cOpts cDb).1.digestGenerated = true ∧
    getTodayNews cDb "2026-01-05" = [cItem] ∧
    ((runDailyDigestPipeline cEnv cOpts cDb).2).items = [cItem] ∧
    cItem.digest_date = none := by
  refine ⟨by decide, by decide, by decide, rfl⟩

end AiTools
